import Mathlib

/-
Verification development for the `openapi-examples-validator` package
(sources under `src/`: `src/index.js`, `src/validator.js`, `src/impl/v2/index.js`,
`src/impl/v3/index.js`).

Shallow embedding notes.
* Parsed JSON documents are modelled by the inductive type `Json`
  (numbers as `Int`, which suffices for every behaviour studied here).
* JavaScript in-place mutation of the specification document (performed by
  `compileValidate` through the shallow copy made in `_prepareSchema`) is made
  explicit: the functions return the document as it stands after the call.
* `fs.readFileSync` + `JSON.parse` are modelled as one external capability
  `FileSystem : String → Option Json`; `none` stands for a read or parse
  failure (both are caught by the same `catch` blocks in the source).
* `glob.sync(pattern, \x7b nonull: true \x7d)` is modelled by passing the expansion
  result explicitly; the `nonull` option guarantees at least one entry, which is
  encoded by passing a head element and a tail list.
* The Ajv engine (`new Ajv`, `addSchema`, `compile`, running the compiled
  validator) is an external collaborator; it is abstracted by an oracle
  `AjvOracle : Json → Json → Json → Except RTErr (List AppError)` receiving the
  reference-schema bundle, the prepared target schema and the example value.
  All reference-bundling and reference-rewriting logic of `src/validator.js`
  (which is repository code) is modelled concretely.
* JSONPath location paths are represented as segment lists (`List String`);
  the JavaScript code carries them as `$[...]`-strings and converts with
  `jsonPath.toPathArray` / `toPathString`, which are mutually inverse, so
  segment-list equality corresponds to the string equality used for the
  validation-map lookups.
-/

inductive Json : Type where
  | null
  | bool (b : Bool)
  | num (n : Int)
  | str (s : String)
  | arr (elems : List Json)
  | obj (fields : List (String × Json))
deriving Repr, Inhabited

namespace Json

mutual
def beq : Json → Json → Bool
  | .null, .null => true
  | .bool a, .bool b => a == b
  | .num a, .num b => a == b
  | .str a, .str b => a == b
  | .arr xs, .arr ys => beqList xs ys
  | .obj fs, .obj gs => beqFields fs gs
  | _, _ => false
def beqList : List Json → List Json → Bool
  | a :: as, b :: bs => beq a b && beqList as bs
  | [], [] => true
  | _, _ => false
def beqFields : List (String × Json) → List (String × Json) → Bool
  | (k, v) :: ps, (l, w) :: qs => k == l && beq v w && beqFields ps qs
  | [], [] => true
  | _, _ => false
end

mutual
def eq_of_beq : ∀ {a b : Json}, beq a b = true → a = b
  | .null, .null, _ => rfl
  | .bool a, .bool b, h => by simp [beq] at h; simp [h]
  | .num a, .num b, h => by simp [beq] at h; simp [h]
  | .str a, .str b, h => by simp [beq] at h; simp [h]
  | .arr xs, .arr ys, h => by
      simp only [beq] at h
      exact congrArg Json.arr (eqList_of_beqList h)
  | .obj fs, .obj gs, h => by
      simp only [beq] at h
      exact congrArg Json.obj (eqFields_of_beqFields h)
def eqList_of_beqList : ∀ {xs ys : List Json}, beqList xs ys = true → xs = ys
  | [], [], _ => rfl
  | x :: xs, y :: ys, h => by
      simp only [beqList, Bool.and_eq_true] at h
      rw [eq_of_beq h.1, eqList_of_beqList h.2]
def eqFields_of_beqFields :
    ∀ {fs gs : List (String × Json)}, beqFields fs gs = true → fs = gs
  | [], [], _ => rfl
  | (k, v) :: fs, (l, w) :: gs, h => by
      simp only [beqFields, Bool.and_eq_true] at h
      rw [eq_of_beq h.1.2, eqFields_of_beqFields h.2, beq_iff_eq.mp h.1.1]
end

mutual
def beq_refl : ∀ (a : Json), beq a a = true
  | .null => rfl
  | .bool a => by simp [beq]
  | .num a => by simp [beq]
  | .str a => by simp [beq]
  | .arr xs => by simp only [beq]; exact beqList_refl xs
  | .obj fs => by simp only [beq]; exact beqFields_refl fs
def beqList_refl : ∀ (xs : List Json), beqList xs xs = true
  | [] => rfl
  | x :: xs => by simp only [beqList, Bool.and_eq_true]; exact ⟨beq_refl x, beqList_refl xs⟩
def beqFields_refl : ∀ (fs : List (String × Json)), beqFields fs fs = true
  | [] => rfl
  | (k, v) :: fs => by
      simp only [beqFields, Bool.and_eq_true]
      exact ⟨⟨beq_iff_eq.mpr rfl, beq_refl v⟩, beqFields_refl fs⟩
end

instance : DecidableEq Json := fun a b =>
  if h : beq a b = true then .isTrue (eq_of_beq h)
  else .isFalse (fun he => h (he ▸ beq_refl a))

/-- JavaScript truthiness of a JSON value (`null`, `false`, `0` and the empty
string are falsy; objects and arrays are always truthy). `undefined` is modelled
by `Json.null`, which is falsy as well. -/
def truthy : Json → Bool
  | .null => false
  | .bool b => b
  | .num n => n != 0
  | .str s => s ≠ ""
  | .arr _ => true
  | .obj _ => true

/-- Field lookup on a JSON object (JavaScript property read); `none` models
`undefined` (also for non-objects). -/
def getField : Json → String → Option Json
  | .obj fs, k => fs.lookup k
  | _, _ => none

/-- Replace the value of the first field named `k`, or append the field if it
is absent: JavaScript property assignment `o[k] = v` on a plain object. -/
def setFields (fs : List (String × Json)) (k : String) (v : Json) :
    List (String × Json) :=
  match fs with
  | [] => [(k, v)]
  | (l, w) :: rest =>
      if l = k then (l, v) :: rest else (l, w) :: setFields rest k v

/-- JavaScript property assignment on a JSON object (identity on non-objects,
where the embedding never performs it). -/
def setField : Json → String → Json → Json
  | .obj fs, k, v => .obj (setFields fs k v)
  | j, _, _ => j

end Json


/- Kernel-reducible string primitives (the core `String` operations
`startsWith`, `drop`, `splitOn`, `replace`, `foldl` and `toNat?` are
implemented by well-founded recursion and therefore do not evaluate inside
closed proofs; the char-list versions below have the same semantics for the
uses of this file). -/

def charListStartsWith : List Char → List Char → Bool
  | _, [] => true
  | [], _ :: _ => false
  | c :: cs, d :: ds => c == d && charListStartsWith cs ds

/-- Model of `String.prototype.startsWith`. -/
def strStartsWith (s p : String) : Bool :=
  charListStartsWith s.data p.data

/-- Drop the first `n` characters (`String.prototype.substring(n)`). -/
def strDrop (s : String) (n : Nat) : String :=
  ⟨s.data.drop n⟩

def splitOnCharAux (sep : Char) : List Char → List Char → List (List Char)
  | [], acc => [acc.reverse]
  | c :: cs, acc =>
      if c == sep then acc.reverse :: splitOnCharAux sep cs []
      else splitOnCharAux sep cs (c :: acc)

/-- Model of `split` on a one-character separator. -/
def strSplitOnChar (s : String) (sep : Char) : List String :=
  (splitOnCharAux sep s.data []).map (fun cs => ⟨cs⟩)

/-- Replace every occurrence of the character `c` by the string `r`. -/
def replaceChar (s : String) (c : Char) (r : String) : String :=
  String.join (s.data.map (fun d => if d == c then r else String.singleton d))

def replacePairAux (a b r : Char) : List Char → List Char
  | [] => []
  | [c] => [c]
  | c :: d :: rest =>
      if c == a && d == b then r :: replacePairAux a b r rest
      else c :: replacePairAux a b r (d :: rest)

/-- Replace every occurrence of the two-character pattern `ab` by `r`. -/
def replacePair (s : String) (a b r : Char) : String :=
  ⟨replacePairAux a b r s.data⟩

def digitVal? (c : Char) : Option Nat :=
  if c == '0' then some 0 else if c == '1' then some 1
  else if c == '2' then some 2 else if c == '3' then some 3
  else if c == '4' then some 4 else if c == '5' then some 5
  else if c == '6' then some 6 else if c == '7' then some 7
  else if c == '8' then some 8 else if c == '9' then some 9 else none

def strToNatAux : List Char → Nat → Option Nat
  | [], acc => some acc
  | c :: cs, acc =>
      match digitVal? c with
      | some d => strToNatAux cs (acc * 10 + d)
      | none => none

/-- Parse a decimal numeral (the array-index check on path and pointer
segments). -/
def strToNat? (s : String) : Option Nat :=
  match s.data with
  | [] => none
  | cs => strToNatAux cs 0


/-- Runtime failures that propagate as JavaScript exceptions through the
source: `TypeError`s, the `ErrorJsonPathNotFound` custom error thrown by
`_extractSchema`, errors thrown by the `json-pointer` library, modelled
read/parse failures and the Determiner failure for unsupported versions. -/
inductive RTErr : Type where
  | typeError (msg : String)
  | jsonPathNotFound (message : String) (path : String)
  | pointerError (msg : String)
  | ioError (path : String)
  | unsupportedVersion
deriving Repr, DecidableEq

namespace Json

/-- Walks a concrete location path (segment list). Array indices travel as
numeric segments, as produced by `jsonPath.toPathArray`. -/
def getPath : Json → List String → Option Json
  | j, [] => some j
  | .obj fs, k :: rest =>
      match fs.lookup k with
      | some v => getPath v rest
      | none => none
  | .arr xs, k :: rest =>
      match strToNat? k with
      | some i =>
          match xs.get? i with
          | some v => getPath v rest
          | none => none
      | none => none
  | _, _ :: _ => none

/-- Replaces the node at a concrete location path (used to make the in-place
mutation performed through shared subtrees explicit). Paths that do not
resolve leave the document unchanged; the embedding only ever writes to paths
it has previously read. -/
def setPath : Json → List String → Json → Json
  | _, [], v => v
  | .obj fs, k :: rest, v =>
      match fs.lookup k with
      | some w => .obj (setFields fs k (setPath w rest v))
      | none => .obj fs
  | .arr xs, k :: rest, v =>
      match strToNat? k with
      | some i =>
          match xs.get? i with
          | some w => .arr (xs.set i (setPath w rest v))
          | none => .arr xs
      | none => .arr xs
  | j, _ :: _, _ => j

mutual
/-- All node locations of a document in depth-first pre-order document order:
the traversal order in which `jsonpath-plus` reports recursive-descent
matches. -/
def allPaths : Json → List (List String)
  | .obj fs => [] :: allPathsFields fs
  | .arr xs => [] :: allPathsElems 0 xs
  | _ => [[]]
def allPathsFields : List (String × Json) → List (List String)
  | [] => []
  | (k, v) :: rest => (allPaths v).map (k :: ·) ++ allPathsFields rest
def allPathsElems : Nat → List Json → List (List String)
  | _, [] => []
  | i, v :: rest => (allPaths v).map (toString i :: ·) ++ allPathsElems (i + 1) rest
end

/-- Concrete location paths matched by a (possibly wildcarded) path whose
segments are all literal names except `*`, which matches every child --- the
fragment of JSONPath needed for the path arguments reaching
`_getObjectByPath` / `_getExampleByPath`. -/
def queryPaths (j : Json) : List String → List (List String)
  | [] => [[]]
  | k :: rest =>
      match j with
      | .obj fs =>
          if k = "*" then
            fs.flatMap (fun kv => (queryPaths kv.2 rest).map (kv.1 :: ·))
          else
            match fs.lookup k with
            | some v => (queryPaths v rest).map (k :: ·)
            | none => []
      | .arr xs =>
          if k = "*" then
            (xs.enum).flatMap (fun iv => (queryPaths iv.2 rest).map (toString iv.1 :: ·))
          else
            match strToNat? k with
            | some i =>
                match xs.get? i with
                | some v => (queryPaths v rest).map (k :: ·)
                | none => []
            | none => []
      | _ => []

/-- The values matched by a query, in match order. -/
def queryValues (j : Json) (segs : List String) : List Json :=
  (queryPaths j segs).filterMap (getPath j)

/-- Model of `flatten: true` of `jsonpath-plus`: array results are spliced into the
match list. -/
def flattenOnce (vs : List Json) : List Json :=
  vs.flatMap (fun v => match v with | .arr xs => xs | _ => [v])

/-- Model of `wrap: false` of `jsonpath-plus`: no match gives `undefined` (modelled
`null`), a single value is returned bare, several are wrapped in an array. -/
def wrapFalse (vs : List Json) : Json :=
  match vs with
  | [] => .null
  | [v] => v
  | vs => .arr vs

end Json

/-- Model of `Array.prototype.splice(start, deleteCount, ...items)` on an immutable
list, with the ECMAScript clamping rules for negative and out-of-range
arguments. -/
def jsSplice {α : Type} (l : List α) (start delCnt : Int) (items : List α) : List α :=
  let len : Int := l.length
  let actualStart : Nat := (if start < 0 then max (len + start) 0 else min start len).toNat
  let actualDel : Nat := (min (max delCnt 0) (len - actualStart)).toNat
  l.take actualStart ++ items ++ l.drop (actualStart + actualDel)

/-- Model of `Array.prototype.lastIndexOf`: index of the last occurrence, `-1` when
absent. -/
def lastIndexOfAux (s : String) : List String → Int → Int → Int
  | [], _, acc => acc
  | x :: xs, i, acc => lastIndexOfAux s xs (i + 1) (if x = s then i else acc)

def lastIndexOf (l : List String) (s : String) : Int :=
  lastIndexOfAux s l 0 (-1)

namespace Json

def escChar (c : Char) : String :=
  if c = '"' then "\\\""
  else if c = '\\' then "\\\\"
  else if c = '\n' then "\\n"
  else if c = '\t' then "\\t"
  else if c = '\r' then "\\r"
  else String.singleton c

def escapeString (s : String) : String :=
  String.join (s.data.map escChar)

mutual
/-- Model of `JSON.stringify` (compact form, as used in the error messages of
`_validateExample`). -/
def stringify : Json → String
  | .null => "null"
  | .bool b => if b then "true" else "false"
  | .num n => toString n
  | .str s => "\"" ++ escapeString s ++ "\""
  | .arr xs => "[" ++ stringifyElems xs ++ "]"
  | .obj fs => "\x7b" ++ stringifyFields fs ++ "\x7d"
def stringifyElems : List Json → String
  | [] => ""
  | [x] => stringify x
  | x :: rest => stringify x ++ "," ++ stringifyElems rest
def stringifyFields : List (String × Json) → String
  | [] => ""
  | [(k, v)] => "\"" ++ escapeString k ++ "\":" ++ stringify v
  | (k, v) :: rest =>
      "\"" ++ escapeString k ++ "\":" ++ stringify v ++ "," ++ stringifyFields rest
end

end Json

/-- RFC 6901 escaping of one path segment, as done by `jsonPath.toPointer`. -/
def escapePointerSeg (s : String) : String :=
  replaceChar (replaceChar s '~' "~0") '/' "~1"

def unescapePointerSeg (s : String) : String :=
  replacePair (replacePair s '~' '1' '/') '~' '0' '~'

/-- Model of `jsonPath.toPointer (jsonPath.toPathArray path)`: the `/`-delimited
pointer form of a location path. -/
def toPointer (segs : List String) : String :=
  segs.foldl (fun acc s => acc ++ "/" ++ escapePointerSeg s) ""

/-- The single-quote character, written by code so that the source holds no
apostrophe. -/
def pathQuote : String := String.singleton (Char.ofNat 39)

/-- Model of `jsonPath.toPathString`: the bracketed-and-quoted string form of
a location path. -/
def toPathString (segs : List String) : String :=
  "$" ++ segs.foldl (fun acc s => acc ++ "[" ++ pathQuote ++ s ++ pathQuote ++ "]") ""

/-- Model of `jsonPath.toPathArray` on the dotted path expressions that reach the
public API (`$.a.b.c` style, as in the mapping files and the
`validateExample` path argument). `$` denotes the root. -/
def parsePathString (s : String) : List String :=
  if s = "$" then []
  else if strStartsWith s "$." then strSplitOnChar (strDrop s 2) '.'
  else [s]

/-- the `json-pointer` operation `parse`: `""` is the root, everything else must start
with `/`. -/
def parsePointer (p : String) : Except RTErr (List String) :=
  if p = "" then .ok []
  else if strStartsWith p "/" then .ok ((strSplitOnChar (strDrop p 1) '/').map unescapePointerSeg)
  else .error (.pointerError ("Invalid JSON pointer: " ++ p))

/-- the `json-pointer` operation `get` on parsed tokens: walks the document and throws
`Invalid reference token` as soon as a token is not present. -/
def pointerGetTokens : Json → List String → Except RTErr Json
  | j, [] => .ok j
  | .obj fs, tok :: rest =>
      match fs.lookup tok with
      | some v => pointerGetTokens v rest
      | none => .error (.pointerError ("Invalid reference token: " ++ tok))
  | .arr xs, tok :: rest =>
      match strToNat? tok with
      | some i =>
          match xs.get? i with
          | some v => pointerGetTokens v rest
          | none => .error (.pointerError ("Invalid reference token: " ++ tok))
      | none => .error (.pointerError ("Invalid reference token: " ++ tok))
  | _, tok :: _ => .error (.pointerError ("Invalid reference token: " ++ tok))

/-- Model of `JsonPointer.get(json, pointer)` on a pointer string. -/
def pointerGet (j : Json) (p : String) : Except RTErr Json := do
  pointerGetTokens j (← parsePointer p)

def isNumericToken (s : String) : Bool :=
  (strToNat? s).isSome

/-- Child read used by the `json-pointer` operation `set` while walking. -/
def pointerChild (j : Json) (tok : String) : Option Json :=
  match j with
  | .obj fs => fs.lookup tok
  | .arr xs => (strToNat? tok).bind xs.get?
  | _ => none

/-- Property write used by the `json-pointer` operation `set` (array writes pad with
`undefined`, modelled `null`, exactly like sparse JavaScript arrays read back
as JSON). -/
def pointerWrite (j : Json) (tok : String) (v : Json) : Json :=
  match j with
  | .obj fs => .obj (Json.setFields fs tok v)
  | .arr xs =>
      match strToNat? tok with
      | some i =>
          if i < xs.length then .arr (xs.set i v)
          else .arr (xs ++ List.replicate (i - xs.length) .null ++ [v])
      | none => .arr xs
  | j => j

/-- Model of `JsonPointer.set(obj, pointer, value)` on parsed tokens: intermediate
containers are created on demand (an array when the next token is numeric,
an object otherwise); setting the root throws. -/
def pointerSetTokens : Json → List String → Json → Except RTErr Json
  | _, [], _ => .error (.pointerError "Can not set the root object")
  | j, [tok], v => .ok (pointerWrite j tok v)
  | j, tok :: next :: rest, v => do
      let child :=
        match pointerChild j tok with
        | some c => c
        | none => if isNumericToken next ∨ next = "-" then .arr [] else .obj []
      let c ← pointerSetTokens child (next :: rest) v
      pure (pointerWrite j tok c)

def pointerSet (j : Json) (p : String) (v : Json) : Except RTErr Json := do
  pointerSetTokens j (← parsePointer p) v

/-- Modelled from the spec: `ApplicationError` lives in
`src/application-error.js`, which is not among the sources. Spec section 3:
"a tagged variant over: validation-keyword failure (carries ... message ...
and optionally examplePath/exampleFilePath/mapFilePath), missing-file error
(carries the attempted path), path-not-found error (carries the offending
location-path string), and generic wrapped-failure". The tag is kept as the
type string; `params` keeps the carried path. Ajv keyword-violation details
(dataPath, keyword, ...) only arise inside the abstracted Ajv oracle and are
folded into `message`. -/
structure AppError : Type where
  errType : String
  message : String
  params : Option String
  examplePath : Option String
  exampleFilePath : Option String
  mapFilePath : Option String
deriving Repr, DecidableEq

namespace AppError

def ERR_TYPE__VALIDATION : String := "Validation"
def ERR_TYPE__JSON_PATH_NOT_FOUND : String := "JsonPathNotFound"
def ERR_TYPE__JS_ENOENT : String := "ENOENT"

/-- Model of `new ApplicationError(ERR_TYPE__VALIDATION, \x7b message \x7d)`. -/
def validation (msg : String) : AppError :=
  ⟨ERR_TYPE__VALIDATION, msg, none, none, none, none⟩

/-- Modelled from the spec: `ApplicationError.create(err)` (also in the missing
`src/application-error.js`) wraps a thrown error, keeping its type, message
and carried path ("Constructed at the point of failure", spec section 3). -/
def create : RTErr → AppError
  | .ioError p =>
      ⟨ERR_TYPE__JS_ENOENT, "ENOENT: no such file or directory, open " ++ p,
        some p, none, none, none⟩
  | .jsonPathNotFound msg p =>
      ⟨ERR_TYPE__JSON_PATH_NOT_FOUND, msg, some p, none, none, none⟩
  | .typeError m => ⟨"TypeError", m, none, none, none, none⟩
  | .pointerError m => ⟨"Error", m, none, none, none, none⟩
  | .unsupportedVersion => ⟨"UnsupportedVersion", "unsupported OpenAPI version", none, none, none, none⟩

/-- Model of `error.examplePath = ...` (`_validateSchema`). -/
def withExamplePath (e : AppError) (p : String) : AppError :=
  { e with examplePath := some p }

/-- Model of `error.exampleFilePath = ...` (`_validateExample`). -/
def withExampleFilePath (e : AppError) (p : String) : AppError :=
  { e with exampleFilePath := some p }

/-- Model of `Object.assign(error, \x7b mapFilePath \x7d)` (`validateExamplesByMap`). -/
def withMapFilePath (e : AppError) (p : String) : AppError :=
  { e with mapFilePath := some p }

end AppError

/-- The statistics counters of `src/index.js`. They are JavaScript numbers,
hence `Int` (the code can drive `schemasWithExamples` below zero);
`matchingFilePathsMapping` is only present in the multi-file workflow, hence
the `Option`. -/
structure ValidationStatistics : Type where
  schemasWithExamples : Int
  examplesTotal : Int
  examplesWithoutSchema : Int
  matchingFilePathsMapping : Option Int
deriving Repr, DecidableEq

/-- Model of `_initStatistics(\x7b schemaPaths \x7d)` of `src/index.js`. -/
def _initStatistics (schemaPaths : List (List String)) : ValidationStatistics :=
  ⟨schemaPaths.length, 0, 0, none⟩

structure ValidationResponse : Type where
  valid : Bool
  statistics : ValidationStatistics
  errors : List AppError
deriving Repr, DecidableEq

/-- Modelled from the spec: `createValidationResponse` lives in
`src/utils.js`, which is not among the sources. Spec section 3: a
`ValidationResponse` is valid iff `errors` is empty; the read-failure call
sites pass no statistics, modelled by passing `_initStatistics []`. -/
def createValidationResponse (errors : List AppError)
    (statistics : ValidationStatistics) : ValidationResponse :=
  ⟨errors.isEmpty, statistics, errors⟩

inductive OpenApiVersion : Type where
  | v2
  | v3
deriving Repr, DecidableEq

/-- Modelled from the spec: the version Determiner (`src/impl/index.js`) is
not among the sources. Spec sections 4.1 and 8: a document with marker
`openapi: "3.x"` selects the v3 path grammar, `swagger: "2.0"` the v2 one,
and anything else fails with an `UnsupportedVersion`-kind error. -/
def getImplementation (doc : Json) : Except RTErr OpenApiVersion :=
  if (doc.getField "openapi").any
      (fun v => match v with | .str s => strStartsWith s "3" | _ => false) then
    .ok .v3
  else if doc.getField "swagger" = some (.str "2.0") then
    .ok .v2
  else
    .error .unsupportedVersion

/-- Does `p` end with the segment sequence `suffix`? -/
def pathEndsWith (p suffix : List String) : Bool :=
  decide (suffix.length ≤ p.length) && p.drop (p.length - suffix.length) == suffix

/-- Model of `src/impl/v2/index.js`, `PATH__EXAMPLES = $..examples.application/json`:
the matched locations are exactly the existing paths ending in those two
segments. -/
def isV2ExamplePath (p : List String) : Bool :=
  pathEndsWith p ["examples", "application/json"]

/-- Model of `src/impl/v2/index.js`, `PATH__SCHEMAS = $..schema`. -/
def isV2SchemaPath (p : List String) : Bool :=
  pathEndsWith p ["schema"]

def isV3Marker (s : String) : Bool :=
  s == "responses" || s == "requestBody"

/-- Model of `src/impl/v3/index.js`, `PATH__EXAMPLES =
$..[responses,requestBody]..content.application/json.examples..[value,$ref]`:
a `responses`/`requestBody` segment, below it the
`content`/`application/json`/`examples` run, and below that a final `value`
or `$ref` segment. -/
def isV3ExamplePath (p : List String) : Bool :=
  (p.getLast? == some "value" || p.getLast? == some "$ref") &&
  (List.range p.length).any (fun j =>
    (p.take j).any isV3Marker &&
    ((p.drop j).take 3 == ["content", "application/json", "examples"]) &&
    decide (j + 4 ≤ p.length))

/-- Model of `src/impl/v3/index.js`, `PATH__SCHEMAS =
$..[responses,requestBody]..content.application/json.schema`. -/
def isV3SchemaPath (p : List String) : Bool :=
  pathEndsWith p ["content", "application/json", "schema"] &&
  (p.take (p.length - 3)).any isV3Marker

/-- Model of `getJsonPathToExamples()` of the selected implementation, as a predicate
on location paths. -/
def examplePathPred : OpenApiVersion → List String → Bool
  | .v2 => isV2ExamplePath
  | .v3 => isV3ExamplePath

/-- Model of `getJsonPathToSchemas()` of the selected implementation, as a predicate
on location paths. -/
def schemaPathPred : OpenApiVersion → List String → Bool
  | .v2 => isV2SchemaPath
  | .v3 => isV3SchemaPath

/-- Model of `_extractExamplePaths(openapiSpec, jsonPathToExamples)`: all matching
locations in traversal order. -/
def _extractExamplePaths (doc : Json) (impl : OpenApiVersion) : List (List String) :=
  (Json.allPaths doc).filter (examplePathPred impl)

/-- Model of `_extractSchemaPaths(openapiSpec, jsonPathToSchemas)`. -/
def _extractSchemaPaths (doc : Json) (impl : OpenApiVersion) : List (List String) :=
  (Json.allPaths doc).filter (schemaPathPred impl)

/- Model of `src/validator.js`. -/

def ID__SPEC_SCHEMA : String :=
  "https://www.npmjs.com/package/openapi-examples-validator/defs.json"

def ID__SCHEMA : String :=
  "https://www.npmjs.com/package/openapi-examples-validator/schema.json"

/-- The callback body of `_replaceRefsToPreparedSpecSchema`: an internal
(`#`-prefixed) reference string is prefixed with the bundle identifier; other
strings are left alone; a non-string `$ref` value makes `value.startsWith`
throw a `TypeError` (the source has no type guard here). -/
def rewriteRefValue : Json → Except RTErr Json
  | .str r => .ok (if strStartsWith r "#" then .str (ID__SPEC_SCHEMA ++ r) else .str r)
  | _ => .error (.typeError "value.startsWith is not a function")

mutual
/-- Rewrites every `$ref`-named property reachable inside a value, in document
order: the effect of the `$..$ref` walk of `_replaceRefsToPreparedSpecSchema` on a
subtree. -/
def rewriteRefs : Json → Except RTErr Json
  | .obj fs => do pure (.obj (← rewriteRefsFields fs))
  | .arr xs => do pure (.arr (← rewriteRefsElems xs))
  | j => .ok j
def rewriteRefsFields :
    List (String × Json) → Except RTErr (List (String × Json))
  | [] => .ok []
  | (k, v) :: rest => do
      let v' ← if k = "$ref" then rewriteRefValue v else rewriteRefs v
      pure ((k, v') :: (← rewriteRefsFields rest))
def rewriteRefsElems : List Json → Except RTErr (List Json)
  | [] => .ok []
  | v :: rest => do
      pure ((← rewriteRefs v) :: (← rewriteRefsElems rest))
end

/-- Rewrites only the `$ref` properties held directly on the top-level field
list (those rewrites land on the shallow copy alone). -/
def topRewrite : List (String × Json) → Except RTErr (List (String × Json))
  | [] => .ok []
  | (k, v) :: rest => do
      let v' ← if k = "$ref" then rewriteRefValue v else .ok v
      pure ((k, v') :: (← topRewrite rest))

/-- Rewrites only the references sitting BELOW the top-level field list: the
walk descends into each shared top-level value subtree, except through a
top-level `$ref` slot, whose rewrite lands on the private slot of the shallow
copy and never reaches the value the caller still holds. This is the
caller-visible effect of `_replaceRefsToPreparedSpecSchema` on an object
schema. -/
def sharedRewrite : List (String × Json) → Except RTErr (List (String × Json))
  | [] => .ok []
  | (k, v) :: rest => do
      let v' ← if k = "$ref" then .ok v else rewriteRefs v
      pure ((k, v') :: (← sharedRewrite rest))

/-- Index-keyed fields produced by `Object.assign(\x7b\x7d, array)`: the
elements land on numeric string keys, each slot holding the same element
reference as the caller array. -/
def indexedFields : Nat → List Json → List (String × Json)
  | _, [] => []
  | i, v :: rest => (toString i, v) :: indexedFields (i + 1) rest

/-- The preparation performed by `compileValidate` before handing the schema
to Ajv: `_prepareSchema` makes a SHALLOW copy (`Object.assign(\x7b\x7d, schema)`) and
tags it with `$id`, then `_replaceRefsToPreparedSpecSchema` rewrites every
internal `$ref` inside the copy in place. A `$ref` sitting below the top
level lives in a subtree shared with the caller schema, so that rewrite is
visible to the caller; a top-level `$ref` sits in a private slot of the copy,
so its rewrite is NOT caller-visible. Returns
`(prepared schema, caller schema as it stands after the call)`. An array
schema shallow-copies to a plain object with numeric keys whose slots still
share the element subtrees, so rewrites inside elements remain
caller-visible; any other non-object schema shallow-copies to a fresh object,
leaving the caller untouched (string schemas would be copied character-wise
by `Object.assign`; no flow of the package produces one). -/
def prepareCompile (s : Json) : Except RTErr (Json × Json) :=
  match s with
  | .obj fs => do
      let shared ← sharedRewrite fs
      let prep ← topRewrite shared
      .ok (Json.setField (.obj prep) "$id" (.str ID__SCHEMA), .obj shared)
  | .arr xs => do
      let elems ← rewriteRefsElems xs
      .ok (Json.setField (.obj (indexedFields 0 elems)) "$id" (.str ID__SCHEMA),
           .arr elems)
  | j => .ok (.obj [("$id", .str ID__SCHEMA)], j)

mutual
/-- The `$ref` property values of a document in document order: the matches of
the `$..$ref` walk of `_createReferenceSchema`. -/
def collectRefs : Json → List Json
  | .obj fs => collectRefsFields fs
  | .arr xs => collectRefsElems xs
  | _ => []
def collectRefsFields : List (String × Json) → List Json
  | [] => []
  | (k, v) :: rest =>
      (if k = "$ref" then [v] else []) ++ collectRefs v ++ collectRefsFields rest
def collectRefsElems : List Json → List Json
  | [] => []
  | v :: rest => collectRefs v ++ collectRefsElems rest
end

/-- One callback step of `_createReferenceSchema`: an internal reference is
resolved against the spec (`JsonPointer.get`, which throws on an unresolvable
pointer) and copied into the bundle at the same pointer; a non-string `$ref`
value throws a `TypeError`. -/
def addRefToBundle (spec : Json) (bundle : Json) (v : Json) : Except RTErr Json :=
  match v with
  | .str r =>
      if strStartsWith r "#" then do
        let ptr := strDrop r 1
        let d ← pointerGet spec ptr
        pointerSet bundle ptr d
      else .ok bundle
  | _ => .error (.typeError "value.startsWith is not a function")

/-- Model of `_createReferenceSchema(specSchema)`: the self-contained reference bundle,
keyed by `ID__SPEC_SCHEMA`. -/
def _createReferenceSchema (spec : Json) : Except RTErr Json :=
  (collectRefs spec).foldlM (addRefToBundle spec)
    (.obj [("$id", .str ID__SPEC_SCHEMA)])

/-- Model of `_initValidatorFactory(specSchema)` = `getValidatorFactory(specSchema,
\x7b allErrors: true \x7d)`: building the factory eagerly builds the reference
bundle (and can therefore throw); the factory itself only wraps `new Ajv` +
`addSchema(bundle)`, so the bundle value stands for the factory. -/
def _initValidatorFactory (spec : Json) : Except RTErr Json :=
  _createReferenceSchema spec

/-- The abstracted external Ajv collaborator: given the registered reference
bundle, the prepared target schema and the example value, either throws (for
instance `compile` on an unresolvable reference) or returns the structured
violation list of a failing validation (empty list: the example is valid). -/
def AjvOracle : Type :=
  Json → Json → Json → Except RTErr (List AppError)

/- Model of `src/index.js`. -/

/-- JavaScript object property update: replace the first binding of the key,
append when absent (key insertion order is preserved). -/
def assocSet {α β : Type} [DecidableEq α] : List (α × β) → α → β → List (α × β)
  | [], k, v => [(k, v)]
  | (l, w) :: rest, k, v =>
      if l = k then (l, v) :: rest else (l, w) :: assocSet rest k v

/-- Model of `_getObjectByPath(path, json)`: JSONPath value query with `flatten: true`
and `wrap: false`. -/
def _getObjectByPath (path : List String) (json : Json) : Json :=
  Json.wrapFalse (Json.flattenOnce (Json.queryValues json path))

/-- Model of `_extractSchema(pathSchema, openapiSpec, suppressErrorIfNotFound)`. A
falsy result with `suppressErrorIfNotFound = false` throws
`ErrorJsonPathNotFound` (message paraphrased without apostrophes: the source
replaces the negated contraction and drops the quotes around the path). -/
def _extractSchema (pathSchema : List String) (openapiSpec : Json)
    (suppressErrorIfNotFound : Bool) : Except RTErr Json :=
  let schema := _getObjectByPath pathSchema openapiSpec
  if !suppressErrorIfNotFound && !schema.truthy then
    .error (.jsonPathNotFound
      ("Path to schema cannot be found: " ++ toPathString pathSchema)
      (toPathString pathSchema))
  else
    .ok schema

/-- The `callback` of `_getExampleByPath`, run over the matched values in
match order, threading the `dereferencedExample` variable: a string match
beginning with `#` is resolved as a pointer (`JsonPointer.get` throws on an
unresolvable one) and, when the resolved node is truthy, recorded
(overwriting any earlier record); non-string matches are skipped by the
`typeof value.startsWith` guard --- except `null`, on which the property read
itself throws. -/
def collectDeref (json : Json) : List Json → Option Json → Except RTErr (Option Json)
  | [], acc => .ok acc
  | .null :: _, _ => .error (.typeError "Cannot read property startsWith of null")
  | .str r :: rest, acc =>
      if strStartsWith r "#" then do
        let d ← pointerGet json (strDrop r 1)
        collectDeref json rest (if d.truthy then some d else acc)
      else
        collectDeref json rest acc
  | _ :: rest, acc => collectDeref json rest acc

/-- The body of `_getExampleByPath` after the query produced its match list:
when some reference string was dereferenced to a truthy node, the `value`
field of that node alone is returned; otherwise the `flatten`/`wrap: false` result
of the query. -/
def getExampleFromMatches (json : Json) (matchValues : List Json) :
    Except RTErr Json := do
  let dereferencedExample ← collectDeref json matchValues none
  match dereferencedExample with
  | some d => .ok ((d.getField "value").getD .null)
  | none => .ok (Json.wrapFalse (Json.flattenOnce matchValues))

/-- Model of `_getExampleByPath(path, json)`: a falsy `path` short-circuits to `null`
without querying the document. -/
def _getExampleByPath (path : Option (List String)) (json : Json) :
    Except RTErr Json :=
  match path with
  | none => .ok .null
  | some p => getExampleFromMatches json (Json.queryValues json p)

/-- Model of `_getSchemaPathOfExample(pathExample)`: splice the last `examples` segment
and everything after it away, splicing in the single segment `schema`. -/
def _getSchemaPathOfExample (pathExample : List String) : List String :=
  let idxExamples := lastIndexOf pathExample "examples"
  jsSplice pathExample idxExamples ((pathExample.length : Int) - idxExamples) ["schema"]

/-- Model of `_buildValidationMap(pathsExamples)`: schema location, derived from each
example location, mapped to that example location; a later example deriving
the same schema location overwrites the earlier one. -/
def _buildValidationMap (pathsExamples : List (List String)) :
    List (List String × List String) :=
  pathsExamples.foldl
    (fun validationMap pathExample =>
      assocSet validationMap (_getSchemaPathOfExample pathExample) pathExample)
    []

/-- Model of `_validateExample(\x7b createValidator, schema, example, statistics,
filePathExample \x7d)`. Returns the emitted errors, the updated statistics
and the caller-visible schema value after the call (`compileValidate`
rewrites shared subtrees; see `prepareCompile`). In the
schema-absent/example-present branch the source builds an `ApplicationError`
and then evaluates `errors.concat(error())` --- calling the error object as a
function --- so that branch throws a `TypeError` instead of returning (the
statistics increments preceding the throw are lost with the exception). -/
def _validateExample (runAjv : AjvOracle) (bundle : Json)
    (schema exampleValue : Json) (statistics : ValidationStatistics)
    (filePathExample : Option String) :
    Except RTErr (List AppError × ValidationStatistics × Json) :=
  if schema.truthy && !exampleValue.truthy then
    .ok ([AppError.validation
            ("Schema: " ++ Json.stringify schema ++ " is missing examples.")],
         { statistics with schemasWithExamples := statistics.schemasWithExamples - 1 },
         schema)
  else if !schema.truthy && exampleValue.truthy then
    .error (.typeError "error is not a function")
  else do
    let statistics' := { statistics with examplesTotal := statistics.examplesTotal + 1 }
    let (preparedSchema, schemaAfter) ← prepareCompile schema
    let errs ← runAjv bundle preparedSchema exampleValue
    let errs' :=
      match filePathExample with
      | none => errs
      | some fp => errs.map (·.withExampleFilePath fp)
    .ok (errs', statistics', schemaAfter)

/-- The accumulator threaded through the `schemaPaths.forEach` loop of `_validateExamplesPaths`: the (possibly mutated) document, the statistics
object, and the `validationResult` fields. -/
structure OrchState : Type where
  doc : Json
  statistics : ValidationStatistics
  errors : List AppError
  valid : Bool
deriving Repr, DecidableEq

/-- The error insertion of `_validateSchema`:
`errors.splice(errors.length - 1, 0, ...curErrors)` inserts the fresh batch
immediately BEFORE the current last element (and at the front of an empty
list, where the start index clamps to 0). -/
def insertPairErrors (errors curErrors : List AppError) : List AppError :=
  jsSplice errors ((errors.length : Int) - 1) 0 curErrors

/-- The per-pair work of `_validateSchema`: resolve the paired example, fetch
the schema (`suppressErrorIfNotFound = false`: a falsy schema value at a
visited schema location throws `ErrorJsonPathNotFound`), validate, and tag
each error with the pointer form of the example location. Returns the tagged
batch, the updated statistics and the document after the call: the
caller-visible schema rewrite (see `prepareCompile`) is written back exactly
when the extracted value aliases the document node, that is when it equals
the node itself (the `flatten` step rewraps array nodes in a fresh wrapper,
in which case only element subtrees are shared --- element-level sharing is
not modelled, and no OpenAPI document carries an array-valued schema node). -/
def pairValidation (runAjv : AjvOracle) (bundle : Json)
    (validationMap : List (List String × List String))
    (pathSchema : List String) (st : OrchState) :
    Except RTErr (List AppError × ValidationStatistics × Json) := do
  let pathExample := validationMap.lookup pathSchema
  let exampleValue ← _getExampleByPath pathExample st.doc
  let schema ← _extractSchema pathSchema st.doc false
  let (curErrors0, statistics', schemaAfter) ←
    _validateExample runAjv bundle schema exampleValue st.statistics none
  let curErrors :=
    match pathExample with
    | some pe => curErrors0.map (·.withExamplePath (toPointer pe))
    | none => curErrors0
  let doc' :=
    if Json.getPath st.doc pathSchema = some schema then
      Json.setPath st.doc pathSchema schemaAfter
    else st.doc
  .ok (curErrors, statistics', doc')

/-- Model of `_validateSchema(\x7b openapiSpec, createValidator, pathSchema,
validationMap, statistics, validationResult \x7d)`: an empty batch leaves the
result untouched; a non-empty one clears `valid` and is spliced in before the
last accumulated error. -/
def _validateSchema (runAjv : AjvOracle) (bundle : Json)
    (validationMap : List (List String × List String))
    (pathSchema : List String) (st : OrchState) : Except RTErr OrchState := do
  let (curErrors, statistics', doc') ←
    pairValidation runAjv bundle validationMap pathSchema st
  if curErrors.isEmpty then
    .ok { st with doc := doc', statistics := statistics' }
  else
    .ok { doc := doc', statistics := statistics',
          errors := insertPairErrors st.errors curErrors, valid := false }

/-- Model of `schemaPaths.forEach(pathSchema => _validateSchema(...))`. -/
def validateSchemasLoop (runAjv : AjvOracle) (bundle : Json)
    (validationMap : List (List String × List String)) :
    List (List String) → OrchState → Except RTErr OrchState
  | [], st => .ok st
  | p :: rest, st => do
      validateSchemasLoop runAjv bundle validationMap rest
        (← _validateSchema runAjv bundle validationMap p st)

/-- Model of `_validateExamplesPaths(pathsExamples, openapiSpec)`. Returns the
response together with the document as it stands after the call. -/
def _validateExamplesPaths (runAjv : AjvOracle)
    (pathsExamples : List (List String)) (openapiSpec : Json) :
    Except RTErr (ValidationResponse × Json) := do
  let bundle ← _initValidatorFactory openapiSpec
  let validationMap := _buildValidationMap pathsExamples
  let impl ← getImplementation openapiSpec
  let schemaPaths := _extractSchemaPaths openapiSpec impl
  let st ← validateSchemasLoop runAjv bundle validationMap schemaPaths
    ⟨openapiSpec, _initStatistics schemaPaths, [], true⟩
  .ok (⟨st.valid, st.statistics, st.errors⟩, st.doc)

/-- Model of `validateExamples(openapiSpec)` --- the default export. Returns the
response together with the document as it stands after the call (the
JavaScript function returns only the response and mutates the caller
document in place through shared subtrees). -/
def validateExamples (runAjv : AjvOracle) (openapiSpec : Json) :
    Except RTErr (ValidationResponse × Json) := do
  let impl ← getImplementation openapiSpec
  let pathsExamples := _extractExamplePaths openapiSpec impl
  _validateExamplesPaths runAjv pathsExamples openapiSpec

/-- The external read-and-parse capability: `none` models a failing
`fs.readFileSync`/`JSON.parse`. -/
def FileSystem : Type := String → Option Json

/-- Model of `validateFile(filePath)`: a read/parse failure is caught and wrapped into
a single-error response. -/
def validateFile (runAjv : AjvOracle) (fs : FileSystem) (filePath : String) :
    Except RTErr ValidationResponse :=
  match fs filePath with
  | none =>
      .ok (createValidationResponse [AppError.create (.ioError filePath)]
        (_initStatistics []))
  | some openapiSpec => (validateExamples runAjv openapiSpec).map (·.1)

/-- Model of `_validate(pathsSchema, validationHandler)`. -/
def _validate (pathsSchema : List (List String))
    (validationHandler : ValidationStatistics →
      Except RTErr (List AppError × ValidationStatistics)) :
    Except RTErr ValidationResponse := do
  let statistics := _initStatistics pathsSchema
  let (errors, statistics') ← validationHandler statistics
  .ok (createValidationResponse errors statistics')

/-- Model of `validateExample(filePathSchema, pathSchema, filePathExample)`: the reads
and the schema extraction live in the `try` block (any failure becomes a
single wrapped error); the validator-factory construction and the validation
itself run outside it. -/
def validateExample (runAjv : AjvOracle) (fs : FileSystem)
    (filePathSchema : String) (pathSchema : String) (filePathExample : String) :
    Except RTErr ValidationResponse :=
  match fs filePathExample with
  | none =>
      .ok (createValidationResponse [AppError.create (.ioError filePathExample)]
        (_initStatistics []))
  | some exampleValue =>
    match fs filePathSchema with
    | none =>
        .ok (createValidationResponse [AppError.create (.ioError filePathSchema)]
          (_initStatistics []))
    | some openapiSpec =>
      match _extractSchema (parsePathString pathSchema) openapiSpec false with
      | .error err =>
          .ok (createValidationResponse [AppError.create err] (_initStatistics []))
      | .ok schema =>
          _validate [parsePathString pathSchema] (fun statistics => do
            let bundle ← _initValidatorFactory openapiSpec
            let (errs, statistics', _) ←
              _validateExample runAjv bundle schema exampleValue statistics
                (some filePathExample)
            .ok (errs, statistics'))

/- Model of the external-examples-by-map workflow of `src/index.js`. -/

/-- Model of `path.dirname`. -/
def jsDirname (p : String) : String :=
  let parts := strSplitOnChar p '/'
  if parts.length ≤ 1 then "." else String.intercalate "/" parts.dropLast

/-- Model of `path.join(dir, rel)` (no normalisation is needed for the modelled file
names, which are opaque keys of the `FileSystem` capability). -/
def jsJoin (a b : String) : String :=
  a ++ "/" ++ b

/-- Model of `_([filePathsExample]).flatten()`: one mapping value is either a single
file path or an array of file paths. -/
def flattenFilePaths : Json → List Json
  | .arr xs => xs
  | v => [v]

/-- Model of `Object.entries` on the parsed mapping file (its keys in declaration
order; primitives have no enumerable keys). -/
def objEntries : Json → List (String × Json)
  | .obj fs => fs
  | _ => []

/-- The state threaded through the example-file loop of one mapping entry: the
schema value as the closure sees it (it is mutated through shared subtrees by
`compileValidate`), the spec document, and the statistics object. -/
structure EntryState : Type where
  schema : Json
  spec : Json
  statistics : ValidationStatistics
deriving Repr, DecidableEq

/-- The inner `flatMap` of `_handleExamplesByMapValidation`: the example files of one entry. Reading/parsing a file is inside a `try` whose failure wraps
into one error and moves on; `_initValidatorFactory` and `_validateExample`
run outside it, so their throws propagate. A non-string array entry makes
`fs.readFileSync` throw, which the same `catch` wraps. The caller-visible
schema mutation is written back into the spec when the entry path resolves
to exactly one location whose node is the extracted value itself (a
multi-match or a `flatten`-rewrapped array is a fresh wrapper whose shallow
copy leaves the caller untouched). -/
def entryFilesLoop (runAjv : AjvOracle) (fs : FileSystem)
    (cwdToMappingFile : Bool) (dirPathMapExternalExamples : String)
    (aliasedPath : Option (List String)) :
    List Json → EntryState → Except RTErr (List AppError × EntryState)
  | [], es => .ok ([], es)
  | .str filePathExample :: rest, es =>
      let resolved :=
        if cwdToMappingFile then jsJoin dirPathMapExternalExamples filePathExample
        else filePathExample
      match fs resolved with
      | none => do
          let (errs, es') ← entryFilesLoop runAjv fs cwdToMappingFile
            dirPathMapExternalExamples aliasedPath rest es
          .ok (AppError.create (.ioError resolved) :: errs, es')
      | some exampleValue => do
          let bundle ← _initValidatorFactory es.spec
          let (errs1, statistics', schemaAfter) ←
            _validateExample runAjv bundle es.schema exampleValue es.statistics
              (some filePathExample)
          let spec' :=
            match aliasedPath with
            | some p => Json.setPath es.spec p schemaAfter
            | none => es.spec
          let (errs2, es') ← entryFilesLoop runAjv fs cwdToMappingFile
            dirPathMapExternalExamples aliasedPath rest ⟨schemaAfter, spec', statistics'⟩
          .ok (errs1 ++ errs2, es')
  | _ :: rest, es => do
      let (errs, es') ← entryFilesLoop runAjv fs cwdToMappingFile
        dirPathMapExternalExamples aliasedPath rest es
      .ok (AppError.create (.typeError "path must be a string") :: errs, es')

/-- Model of `_handleExamplesByMapValidation(openapiSpec, mapExternalExamples,
statistics, \x7b cwdToMappingFile, dirPathMapExternalExamples \x7d)`: the outer
`flatMap` over the mapping entries. A schema location that fails to resolve
is caught, contributes exactly the one wrapped error, and the examples of
that entry are never read; sibling entries continue. Returns the
concatenated errors, the statistics and the spec document after the call. -/
def _handleExamplesByMapValidation (runAjv : AjvOracle) (fs : FileSystem)
    (cwdToMappingFile : Bool) (dirPathMapExternalExamples : String) :
    List (String × Json) → Json → ValidationStatistics →
    Except RTErr (List AppError × ValidationStatistics × Json)
  | [], spec, statistics => .ok ([], statistics, spec)
  | (pathSchemaStr, filePathsExample) :: rest, spec, statistics =>
      let schemaSegs := parsePathString pathSchemaStr
      match _extractSchema schemaSegs spec false with
      | .error err => do
          let (errs, statistics', spec') ← _handleExamplesByMapValidation runAjv fs
            cwdToMappingFile dirPathMapExternalExamples rest spec statistics
          .ok (AppError.create err :: errs, statistics', spec')
      | .ok schema => do
          -- the extracted schema aliases the document node exactly when it is
          -- that node (see `pairValidation` on the `flatten` rewrap)
          let aliasedPath : Option (List String) :=
            match Json.queryPaths spec schemaSegs with
            | [p] => if Json.getPath spec p = some schema then some p else none
            | _ => none
          let (errs1, es) ← entryFilesLoop runAjv fs cwdToMappingFile
            dirPathMapExternalExamples aliasedPath (flattenFilePaths filePathsExample)
            ⟨schema, spec, statistics⟩
          let (errs2, statistics', spec') ← _handleExamplesByMapValidation runAjv fs
            cwdToMappingFile dirPathMapExternalExamples rest es.spec es.statistics
          .ok (errs1 ++ errs2, statistics', spec')

/-- Field-wise statistics merge of `_mergeValidationResponses`:
`_.entries(response1.statistics)` summed against `response2.statistics` on
top of `_initStatistics(\x7b schemaPaths: [] \x7d)`. Both reachable operands carry
exactly the three base counters; the `matchingFilePathsMapping` arm mirrors
"key present on `response1`" (were it present on `response1` only, the
JavaScript sum with `undefined` would be `NaN`, a situation no flow of the
package produces). -/
def mergeStatistics (s1 s2 : ValidationStatistics) : ValidationStatistics :=
  ⟨s1.schemasWithExamples + s2.schemasWithExamples,
   s1.examplesTotal + s2.examplesTotal,
   s1.examplesWithoutSchema + s2.examplesWithoutSchema,
   s1.matchingFilePathsMapping.map (fun v => v + s2.matchingFilePathsMapping.getD 0)⟩

/-- Model of `_mergeValidationResponses(response1, response2)`. -/
def _mergeValidationResponses (response1 response2 : ValidationResponse) :
    ValidationResponse :=
  createValidationResponse (response1.errors ++ response2.errors)
    (mergeStatistics response1.statistics response2.statistics)

/-- One glob entry of `validateExamplesByMap`: parse the mapping file and the
spec file (a failure of either wraps into a single-error response and does
not count the file), then run the handler under `_validate` over the mapping
keys, tagging every error with the mapping file path. The returned flag tells
whether `matchingFilePathsMapping` was incremented for this file. -/
def byMapProcessFile (runAjv : AjvOracle) (fs : FileSystem)
    (cwdToMappingFile : Bool) (filePathSchema : String)
    (filePathMapExternalExamples : String) :
    Except RTErr (ValidationResponse × Bool) :=
  match fs filePathMapExternalExamples with
  | none =>
      .ok (createValidationResponse
        [AppError.create (.ioError filePathMapExternalExamples)]
        (_initStatistics []), false)
  | some mapExternalExamples =>
    match fs filePathSchema with
    | none =>
        .ok (createValidationResponse [AppError.create (.ioError filePathSchema)]
          (_initStatistics []), false)
    | some openapiSpec => do
        let entries := objEntries mapExternalExamples
        let statistics := _initStatistics (entries.map (fun e => parsePathString e.1))
        let (errs, statistics', _) ← _handleExamplesByMapValidation runAjv fs
          cwdToMappingFile (jsDirname filePathMapExternalExamples) entries
          openapiSpec statistics
        let errsTagged := errs.map (·.withMapFilePath filePathMapExternalExamples)
        .ok (createValidationResponse errsTagged statistics', true)

/-- The `glob.sync(...).map(...)` loop, counting the successfully opened
(mapping file, spec file) pairs. -/
def byMapFilesLoop (runAjv : AjvOracle) (fs : FileSystem)
    (cwdToMappingFile : Bool) (filePathSchema : String) :
    List String → Except RTErr (List ValidationResponse × Nat)
  | [] => .ok ([], 0)
  | f :: rest => do
      let (r, counted) ← byMapProcessFile runAjv fs cwdToMappingFile filePathSchema f
      let (rs, n) ← byMapFilesLoop runAjv fs cwdToMappingFile filePathSchema rest
      .ok (r :: rs, (if counted then 1 else 0) + n)

/-- Model of `validateExamplesByMap(filePathSchema, globMapExternalExamples,
\x7b cwdToMappingFile \x7d)`. The glob expansion is an explicit input; the
`nonull` option of `glob.sync` guarantees at least one entry, encoded as a
head element plus a tail list. The merged response receives
`matchingFilePathsMapping` through the final `_.merge`. -/
def validateExamplesByMap (runAjv : AjvOracle) (fs : FileSystem)
    (filePathSchema : String) (globFirst : String) (globRest : List String)
    (cwdToMappingFile : Bool) : Except RTErr ValidationResponse := do
  let (r0, c0) ← byMapProcessFile runAjv fs cwdToMappingFile filePathSchema globFirst
  let (rs, n) ← byMapFilesLoop runAjv fs cwdToMappingFile filePathSchema globRest
  let merged := rs.foldl _mergeValidationResponses r0
  let matchingFilePathsMapping : Int := (if c0 then 1 else 0) + n
  .ok { merged with
        statistics :=
          { merged.statistics with
            matchingFilePathsMapping := some matchingFilePathsMapping } }

/- Concrete inputs used by the evaluations below. -/

/-- An Ajv oracle that reports every example as valid; the runs below never
reach the oracle on the interesting branches, or reach it where its outcome
is irrelevant to the stated property. -/
def trivialAjv : AjvOracle := fun _ _ _ => .ok []

/-- A v2 document with one example whose derived schema location
(`$.paths./.get.responses.200.schema`) holds no node at all. -/
def c1DocNoSchemaNode : Json := .obj [("swagger", .str "2.0"),
  ("paths", .obj [("/", .obj [("get", .obj [("responses", .obj [("200", .obj [
    ("examples", .obj [("application/json", .obj [("x", .num 1)])])])])])])])]

/-- The same document with the derived schema location present but holding a
falsy (`null`) schema value. -/
def c1DocFalsySchemaNode : Json := .obj [("swagger", .str "2.0"),
  ("paths", .obj [("/", .obj [("get", .obj [("responses", .obj [("200", .obj [
    ("schema", .null),
    ("examples", .obj [("application/json", .obj [("x", .num 1)])])])])])])])]

def c1ExamplePath : List String :=
  ["paths", "/", "get", "responses", "200", "examples", "application/json"]

/-- A v2 document with two schema locations and no examples: both pairs emit
one missing-examples error each. -/
def c3Doc : Json := .obj [("swagger", .str "2.0"),
  ("paths", .obj [
    ("a", .obj [("schema", .obj [("type", .str "string")])]),
    ("b", .obj [("schema", .obj [("type", .str "number")])])])]

def c3ErrA : AppError :=
  AppError.validation "Schema: \x7b\"type\":\"string\"\x7d is missing examples."

def c3ErrB : AppError :=
  AppError.validation "Schema: \x7b\"type\":\"number\"\x7d is missing examples."

/-- The empty reference bundle (a document without internal references). -/
def emptyBundle : Json := .obj [("$id", .str ID__SPEC_SCHEMA)]

/-- A v2 document whose schema carries a nested (below top level) internal
`$ref`. -/
def c2Doc : Json := .obj [("swagger", .str "2.0"),
  ("definitions", .obj [("D", .obj [("type", .str "string")])]),
  ("paths", .obj [("/", .obj [("get", .obj [("responses", .obj [("200", .obj [
    ("schema", .obj [("items", .obj [("$ref", .str "#/definitions/D")])]),
    ("examples", .obj [("application/json", .arr [.str "x"])])])])])])])]

/-- State of `c2Doc` as the caller sees it after `validateExamples`: the nested `$ref`
has been rewritten in place to point into the reference bundle. -/
def c2DocAfter : Json := .obj [("swagger", .str "2.0"),
  ("definitions", .obj [("D", .obj [("type", .str "string")])]),
  ("paths", .obj [("/", .obj [("get", .obj [("responses", .obj [("200", .obj [
    ("schema", .obj [("items", .obj [("$ref",
      .str (ID__SPEC_SCHEMA ++ "#/definitions/D"))])]),
    ("examples", .obj [("application/json", .arr [.str "x"])])])])])])])]

/-- Document whose only visited schema holds its `$ref` in the TOP-LEVEL slot:
the rewrite of that slot lands on the private shallow copy of
`_prepareSchema`, so the caller document is left untouched. -/
def c2TopDoc : Json := .obj [("swagger", .str "2.0"),
  ("definitions", .obj [("D", .obj [("type", .str "string")])]),
  ("paths", .obj [("/", .obj [("get", .obj [("responses", .obj [("200", .obj [
    ("schema", .obj [("$ref", .str "#/definitions/D")]),
    ("examples", .obj [("application/json", .str "x")])])])])])])]

/-- The response `validateExamples` returns on `c2TopDoc`: one schema path
with an example, no errors, document unchanged. -/
def c2TopResp : ValidationResponse := ⟨true, ⟨1, 1, 0, none⟩, []⟩

/-- Mapping-file scenario: the mapping file opens and parses, the spec file
does not. -/
def c6Fs : FileSystem := fun p =>
  if p = "map.json" then some (.obj [("$.schema", .str "e1.json")]) else none

/-- A document in which the wildcard path `$.a.*` matches two reference
strings: `#/target` resolves to a truthy node, `#/missing` does not resolve. -/
def c10Doc : Json := .obj [
  ("a", .obj [("x", .str "#/target"), ("y", .str "#/missing")]),
  ("target", .obj [("value", .num 5)])]

deriving instance DecidableEq for Except

/-- Decidable sufficient condition under which the preparation step of
`compileValidate` leaves the caller document untouched: every schema extracted at a
visited schema location comes back from `prepareCompile` with an unchanged
caller-visible part (no `$ref` below the top level of any visited schema). -/
def noSharedRefRewrites (doc : Json) : Bool :=
  match getImplementation doc with
  | .ok impl =>
      (_extractSchemaPaths doc impl).all (fun p =>
        match _extractSchema p doc false with
        | .ok s =>
            match prepareCompile s with
            | .ok pr => pr.2 == s
            | .error _ => true
        | .error _ => true)
  | .error _ => true

/-- The response `validateExamples` produces on `c3Doc` (used to discharge
witness hypotheses). -/
def c3Resp : ValidationResponse :=
  ⟨false, ⟨0, 0, 0, none⟩, [c3ErrB, c3ErrA]⟩

/-- A file system on which every read fails. -/
def c8Fs : FileSystem := fun _ => none

/-- A one-entry mapping file over a one-schema spec, used as a witness
input for the by-map theorems. -/
def c7Fs : FileSystem := fun p =>
  if p = "map.json" then
    some (.obj [("$.schema", .str "e1.json"), ("$.nope", .str "e2.json")])
  else if p = "spec.json" then
    some (.obj [("schema", .obj [("type", .str "string")])])
  else if p = "e1.json" then some (.obj [("a", .num 1)])
  else none

/-- The response `validateExamplesByMap` produces on `c6Fs` (mapping file
readable, spec file unreadable). -/
def c6Resp : ValidationResponse :=
  ⟨false, ⟨0, 0, 0, some 0⟩, [AppError.create (.ioError "spec.json")]⟩

/- Helper lemmas. -/

theorem except_bind_ok {ε α β : Type} (x : Except ε α) (f : α → Except ε β) (b : β) :
    x >>= f = .ok b ↔ ∃ a, x = .ok a ∧ f a = .ok b := by
  cases x <;> simp [Bind.bind, Except.bind]

theorem insertPairErrors_nil (L : List AppError) : insertPairErrors [] L = L := by
  simp [insertPairErrors, jsSplice]

theorem jsSplice_insert {α : Type} (l : List α) (s : Nat) (items : List α)
    (h : s ≤ l.length) :
    jsSplice l (s : Int) 0 items = l.take s ++ items ++ l.drop s := by
  simp only [jsSplice]
  have h0 : ¬ ((s : Int) < 0) := by omega
  rw [if_neg h0]
  have h1 : (min (s : Int) (l.length : Int)).toNat = s := by omega
  rw [h1]
  have h2 : (min (max (0 : Int) 0) ((l.length : Int) - (s : Int))).toNat = 0 := by
    omega
  rw [h2, Nat.add_zero]

theorem insertPairErrors_append_last (T b : List AppError) (a : AppError) :
    insertPairErrors (T ++ [a]) b = T ++ b ++ [a] := by
  have hs : (((T ++ [a]).length : Int) - 1) = ((T.length : Nat) : Int) := by
    simp
  rw [insertPairErrors, hs, jsSplice_insert (T ++ [a]) T.length b (by simp),
    List.take_left, List.drop_left]

theorem spliceFold_from_last (bs : List (List AppError)) :
    ∀ (T : List AppError) (a : AppError),
      bs.foldl insertPairErrors (T ++ [a]) = T ++ bs.flatten ++ [a] := by
  induction bs with
  | nil => intro T a; simp
  | cons b bs ih =>
      intro T a
      simp only [List.foldl_cons, insertPairErrors_append_last]
      have : T ++ b ++ [a] = (T ++ b) ++ [a] := by simp
      rw [this, ih (T ++ b)]
      simp

/-- Claim C3 (amended): the error batches of the schema/example pairs are not
appended: each non-empty batch is spliced in immediately before the last
accumulated error (`errors.splice(errors.length - 1, 0, ...curErrors)` in
`_validateSchema`), so for a first non-empty batch `T ++ [a]` followed by the
later batches `rest`, the final list is `T`, then all later batches in visit
order, then `a` --- the last error of the first batch migrates to the very end. -/
theorem C3_amended (T : List AppError) (a : AppError)
    (rest : List (List AppError)) :
    List.foldl insertPairErrors [] ((T ++ [a]) :: rest) =
      T ++ rest.flatten ++ [a] := by
  simp only [List.foldl_cons, insertPairErrors_nil]
  exact spliceFold_from_last rest T a

theorem C3_amended_witness :
    List.foldl insertPairErrors [] ([c3ErrA, c3ErrB] :: [[c3ErrA]]) =
      [c3ErrA, c3ErrA, c3ErrB] := by
  have h := C3_amended [c3ErrA] c3ErrB [[c3ErrA]]
  simpa using h

/-- Claim C3 (counterexample): on a document with two schema locations in
visit order `$.paths.a.schema`, `$.paths.b.schema` and no examples, the pairs
emit the batches `[c3ErrA]` then `[c3ErrB]`, but the returned error list is
`[c3ErrB, c3ErrA]` --- not the concatenation `[c3ErrA] ++ [c3ErrB]` of the
batches in visit order. -/
theorem C3_counterexample :
    _extractSchemaPaths c3Doc .v2 = [["paths", "a", "schema"], ["paths", "b", "schema"]] ∧
    _initValidatorFactory c3Doc = .ok emptyBundle ∧
    pairValidation trivialAjv emptyBundle [] ["paths", "a", "schema"]
        ⟨c3Doc, ⟨2, 0, 0, none⟩, [], true⟩ =
      .ok ([c3ErrA], ⟨1, 0, 0, none⟩, c3Doc) ∧
    _validateSchema trivialAjv emptyBundle [] ["paths", "a", "schema"]
        ⟨c3Doc, ⟨2, 0, 0, none⟩, [], true⟩ =
      .ok ⟨c3Doc, ⟨1, 0, 0, none⟩, [c3ErrA], false⟩ ∧
    pairValidation trivialAjv emptyBundle [] ["paths", "b", "schema"]
        ⟨c3Doc, ⟨1, 0, 0, none⟩, [c3ErrA], false⟩ =
      .ok ([c3ErrB], ⟨0, 0, 0, none⟩, c3Doc) ∧
    (validateExamples trivialAjv c3Doc).map (fun r => r.1.errors) =
      .ok [c3ErrB, c3ErrA] ∧
    [c3ErrB, c3ErrA] ≠ [c3ErrA] ++ [c3ErrB] := by
  refine ⟨by decide, by decide, by decide, by decide, by decide, by decide, by decide⟩

/-- Claim C1: evaluation of the code at the failing inputs. On
`c1DocNoSchemaNode` the derived schema location of the discovered example holds no
schema value, yet `validateExamples` returns a valid response with no error,
`examplesTotal = 0` and `examplesWithoutSchema = 0` (the orchestration loop
iterates schema locations only, so the pair is never visited). On
`c1DocFalsySchemaNode`, where the derived location exists with a falsy value,
the call throws `ErrorJsonPathNotFound` (line 347 passes
`suppressErrorIfNotFound = false`). The missing-schema branch of
`_validateExample` itself, evaluated directly, throws a `TypeError` because
line 475 calls the freshly built `ApplicationError` object as a function
(`errors.concat(error())`). -/
theorem C1_code_bug_eval :
    (_extractExamplePaths c1DocNoSchemaNode .v2 = [c1ExamplePath]) ∧
    (Json.getPath c1DocNoSchemaNode (_getSchemaPathOfExample c1ExamplePath) = none) ∧
    (validateExamples trivialAjv c1DocNoSchemaNode =
      .ok (⟨true, ⟨0, 0, 0, none⟩, []⟩, c1DocNoSchemaNode)) ∧
    (validateExamples trivialAjv c1DocFalsySchemaNode =
      .error (.jsonPathNotFound
        ("Path to schema cannot be found: " ++
          toPathString ["paths", "/", "get", "responses", "200", "schema"])
        (toPathString ["paths", "/", "get", "responses", "200", "schema"]))) ∧
    (_validateExample trivialAjv emptyBundle .null (.obj [("x", .num 1)])
        (_initStatistics []) none = .error (.typeError "error is not a function")) := by
  refine ⟨by decide, by decide, by decide, by decide, by decide⟩

theorem lastIndexOfAux_append (s : String) (xs ys : List String) :
    ∀ (i acc : Int),
      lastIndexOfAux s (xs ++ ys) i acc =
        lastIndexOfAux s ys (i + xs.length) (lastIndexOfAux s xs i acc) := by
  induction xs with
  | nil => intro i acc; simp [lastIndexOfAux]
  | cons x xs ih =>
      intro i acc
      have hc : ((xs.length + 1 : Nat) : Int) = (xs.length : Int) + 1 := by
        push_cast; ring
      simp only [List.cons_append, lastIndexOfAux, List.length_cons, hc, List.append_eq]
      rw [ih]
      have harith : i + 1 + (xs.length : Int) = i + ((xs.length : Int) + 1) := by
        ring
      rw [harith]

theorem lastIndexOfAux_not_mem (s : String) (l : List String) :
    ∀ (i acc : Int), s ∉ l → lastIndexOfAux s l i acc = acc := by
  induction l with
  | nil => intro i acc _; rfl
  | cons x xs ih =>
      intro i acc h
      simp only [List.mem_cons, not_or] at h
      have hx : ¬ (x = s) := fun he => h.1 he.symm
      simp only [lastIndexOfAux, if_neg hx]
      exact ih _ _ h.2

theorem lastIndexOf_sandwich (p q : List String) (h : "examples" ∉ q) :
    lastIndexOf (p ++ "examples" :: q) "examples" = (p.length : Int) := by
  have hsplit : p ++ "examples" :: q = (p ++ ["examples"]) ++ q := by simp
  rw [lastIndexOf, hsplit, lastIndexOfAux_append, lastIndexOfAux_not_mem _ _ _ _ h,
    lastIndexOfAux_append]
  simp [lastIndexOfAux]

theorem getSchemaPathOfExample_eq (p q : List String) (h : "examples" ∉ q) :
    _getSchemaPathOfExample (p ++ "examples" :: q) = p ++ ["schema"] := by
  rw [_getSchemaPathOfExample, lastIndexOf_sandwich p q h]
  simp only [jsSplice]
  have h0 : ¬ ((p.length : Int) < 0) := by omega
  rw [if_neg h0]
  have hlen : (p ++ "examples" :: q).length = p.length + (q.length + 1) := by
    simp
  have h1 : (min ((p.length : Nat) : Int) (((p ++ "examples" :: q).length : Nat) : Int)).toNat
      = p.length := by
    rw [hlen]; push_cast; omega
  rw [h1]
  have h2 : (min (max (((p ++ "examples" :: q).length : Int) - (p.length : Int)) 0)
      (((p ++ "examples" :: q).length : Int) - (p.length : Int))).toNat = q.length + 1 := by
    rw [hlen]; push_cast; omega
  rw [h2]
  have h3 : (p ++ "examples" :: q).take p.length = p := by
    have := List.take_left p ("examples" :: q)
    simp only at this
    exact this
  have h4 : (p ++ "examples" :: q).drop (p.length + (q.length + 1)) = [] := by
    apply List.drop_eq_nil_of_le
    simp [hlen]
  rw [h3, h4, List.append_nil]

theorem assocSet_lookup_eq (m : List (List String × List String))
    (k v : List String) :
    (assocSet m k v).lookup k = some v := by
  induction m with
  | nil => simp [assocSet, List.lookup]
  | cons kv m ih =>
      cases kv with
      | mk a b =>
          by_cases h : a = k
          · subst h
            simp [assocSet, List.lookup]
          · have hb : (k == a) = false := by
              simp only [beq_eq_false_iff_ne, ne_eq]
              exact fun he => h he.symm
            simp [assocSet, h, List.lookup, hb, ih]

theorem assocSet_lookup_ne (m : List (List String × List String))
    (k' k v : List String) (h : k' ≠ k) :
    (assocSet m k' v).lookup k = m.lookup k := by
  have hb : (k == k') = false := by
    simp only [beq_eq_false_iff_ne, ne_eq]
    exact fun he => h he.symm
  induction m with
  | nil => simp [assocSet, List.lookup, hb]
  | cons kv m ih =>
      cases kv with
      | mk a b =>
          by_cases ha : a = k'
          · subst ha
            simp [assocSet, List.lookup, hb]
          · simp only [assocSet, if_neg ha, List.lookup]
            cases hkb : (k == a) <;> simp [hkb, ih]

theorem getLast?_cons_eq_or {α : Type} (a : α) (l : List α) :
    (a :: l).getLast? = l.getLast?.or (some a) := by
  induction l generalizing a with
  | nil => simp
  | cons b l ih =>
      rw [List.getLast?_cons_cons, ih b]
      cases hl : l.getLast? <;> simp [Option.or]

theorem buildMap_go (ps : List (List String)) :
    ∀ (m : List (List String × List String)) (k : List String),
      (ps.foldl (fun vm pe => assocSet vm (_getSchemaPathOfExample pe) pe) m).lookup k =
        ((ps.filter (fun pe => _getSchemaPathOfExample pe == k)).getLast?).or
          (m.lookup k) := by
  induction ps with
  | nil => intro m k; simp [Option.or]
  | cons pe ps ih =>
      intro m k
      simp only [List.foldl_cons]
      by_cases hd : _getSchemaPathOfExample pe = k
      · rw [ih, hd, assocSet_lookup_eq]
        have hfc : List.filter (fun pe => _getSchemaPathOfExample pe == k) (pe :: ps)
            = pe :: List.filter (fun pe => _getSchemaPathOfExample pe == k) ps := by
          rw [List.filter_cons, if_pos (by simpa using hd)]
        rw [hfc, getLast?_cons_eq_or]
        cases hfl : (ps.filter (fun pe => _getSchemaPathOfExample pe == k)).getLast? <;>
          simp [Option.or]
      · rw [ih, assocSet_lookup_ne _ _ _ _ hd]
        have hfc : List.filter (fun pe => _getSchemaPathOfExample pe == k) (pe :: ps)
            = List.filter (fun pe => _getSchemaPathOfExample pe == k) ps := by
          rw [List.filter_cons, if_neg (by simpa using hd)]
        rw [hfc]

/-- Claim C9: (1) for an example location path whose last `examples` segment is
followed by the trailing segments `q`, `_getSchemaPathOfExample` replaces
that segment and everything after it by the single segment `schema`;
(2) `_buildValidationMap` maps each derived schema location to the LAST
example location (in traversal order) deriving it --- later entries overwrite
earlier ones. -/
theorem C9_schema_path_derivation_last_wins :
    (∀ (p q : List String), "examples" ∉ q →
      _getSchemaPathOfExample (p ++ "examples" :: q) = p ++ ["schema"]) ∧
    (∀ (pathsExamples : List (List String)) (k : List String),
      (_buildValidationMap pathsExamples).lookup k =
        (pathsExamples.filter
          (fun pe => _getSchemaPathOfExample pe == k)).getLast?) := by
  constructor
  · exact getSchemaPathOfExample_eq
  · intro ps k
    simp only [_buildValidationMap]
    rw [buildMap_go]
    have hnil : (List.lookup k ([] : List (List String × List String))) = none := rfl
    rw [hnil, Option.or_none]

theorem C9_witness :
    (_getSchemaPathOfExample ["paths", "examples", "application/json"] =
      ["paths", "schema"]) ∧
    (_buildValidationMap [["a", "examples", "j"], ["a", "examples", "k"]]).lookup
        ["a", "schema"] = some ["a", "examples", "k"] := by
  constructor
  · have h := C9_schema_path_derivation_last_wins.1 ["paths"] ["application/json"]
      (by decide)
    simpa using h
  · have h := C9_schema_path_derivation_last_wins.2
      [["a", "examples", "j"], ["a", "examples", "k"]] ["a", "schema"]
    rw [h]; decide

theorem except_ok_bind {ε α β : Type} (a : α) (f : α → Except ε β) :
    ((Except.ok a : Except ε α) >>= f) = f a := rfl

theorem except_error_bind {ε α β : Type} (e : ε) (f : α → Except ε β) :
    ((Except.error e : Except ε α) >>= f) = .error e := rfl

theorem collectDeref_append (json : Json) (l1 l2 : List Json) :
    ∀ acc, collectDeref json (l1 ++ l2) acc =
      (collectDeref json l1 acc) >>= collectDeref json l2 := by
  induction l1 with
  | nil => intro acc; rw [List.nil_append, collectDeref, except_ok_bind]
  | cons v l1 ih =>
      intro acc
      cases v with
      | null => simp [collectDeref, except_error_bind]
      | str r =>
          simp only [List.cons_append, collectDeref]
          split
          · cases hp : pointerGet json (strDrop r 1) with
            | error e => simp [hp, except_error_bind]
            | ok d => simp [hp, except_ok_bind, ih]
          · exact ih acc
      | bool b => simpa only [List.cons_append, collectDeref] using ih acc
      | num n => simpa only [List.cons_append, collectDeref] using ih acc
      | arr xs => simpa only [List.cons_append, collectDeref] using ih acc
      | obj fs => simpa only [List.cons_append, collectDeref] using ih acc

theorem collectDeref_ok_exists (json : Json) (ms : List Json)
    (h1 : Json.null ∉ ms)
    (h2 : ∀ s, Json.str s ∈ ms → strStartsWith s "#" = true →
      ∃ w, pointerGet json (strDrop s 1) = .ok w) :
    ∀ acc, ∃ acc', collectDeref json ms acc = .ok acc' := by
  induction ms with
  | nil => intro acc; exact ⟨acc, rfl⟩
  | cons v ms ih =>
      have h1' : Json.null ∉ ms := fun hm => h1 (List.mem_cons_of_mem _ hm)
      have h2' : ∀ s, Json.str s ∈ ms → strStartsWith s "#" = true →
          ∃ w, pointerGet json (strDrop s 1) = .ok w :=
        fun s hs => h2 s (List.mem_cons_of_mem _ hs)
      intro acc
      cases v with
      | null => exact absurd (List.mem_cons_self _ _) h1
      | str r =>
          simp only [collectDeref]
          by_cases hr : strStartsWith r "#" = true
          · obtain ⟨w, hw⟩ := h2 r (List.mem_cons_self _ _) hr
            rw [if_pos hr]
            simp only [hw, except_ok_bind]
            exact ih h1' h2' _
          · rw [if_neg hr]
            exact ih h1' h2' acc
      | bool b => simpa only [collectDeref] using ih h1' h2' acc
      | num n => simpa only [collectDeref] using ih h1' h2' acc
      | arr xs => simpa only [collectDeref] using ih h1' h2' acc
      | obj fs => simpa only [collectDeref] using ih h1' h2' acc

theorem collectDeref_falsy_keeps (json : Json) (ms : List Json)
    (h1 : Json.null ∉ ms)
    (h2 : ∀ s, Json.str s ∈ ms → strStartsWith s "#" = true →
      ∃ w, pointerGet json (strDrop s 1) = .ok w ∧ w.truthy = false) :
    ∀ acc, collectDeref json ms acc = .ok acc := by
  induction ms with
  | nil => intro acc; rfl
  | cons v ms ih =>
      have h1' : Json.null ∉ ms := fun hm => h1 (List.mem_cons_of_mem _ hm)
      have h2' : ∀ s, Json.str s ∈ ms → strStartsWith s "#" = true →
          ∃ w, pointerGet json (strDrop s 1) = .ok w ∧ w.truthy = false :=
        fun s hs => h2 s (List.mem_cons_of_mem _ hs)
      intro acc
      cases v with
      | null => exact absurd (List.mem_cons_self _ _) h1
      | str r =>
          simp only [collectDeref]
          by_cases hr : strStartsWith r "#" = true
          · obtain ⟨w, hw, hwf⟩ := h2 r (List.mem_cons_self _ _) hr
            rw [if_pos hr]
            simp only [hw, except_ok_bind, hwf]
            simpa using ih h1' h2' acc
          · rw [if_neg hr]
            exact ih h1' h2' acc
      | bool b => simpa only [collectDeref] using ih h1' h2' acc
      | num n => simpa only [collectDeref] using ih h1' h2' acc
      | arr xs => simpa only [collectDeref] using ih h1' h2' acc
      | obj fs => simpa only [collectDeref] using ih h1' h2' acc

/-- Claim C10 (amended): `_getExampleByPath` on a falsy path returns `null`
without querying; and when the match list splits as `l ++ [#-ref r] ++ rest`
where NO matched value in `l` or `rest` is the JSON value `null` (the
callback reads `value.startsWith` without a type guard, so a matched `null`
makes the function throw a `TypeError`), every reference string in `l`
resolves, `r` dereferences to a truthy node `d`, and every reference string
in `rest` resolves but only to falsy nodes, the result is the `value` field
of `d` alone. (An unresolvable reference anywhere in the match list likewise
makes the function throw instead of returning --- see the counterexample.) -/
theorem C10_amended :
    (∀ json : Json, _getExampleByPath none json = .ok .null) ∧
    (∀ (json : Json) (l rest : List Json) (r : String) (d : Json),
      Json.null ∉ l → Json.null ∉ rest →
      (∀ s, Json.str s ∈ l → strStartsWith s "#" = true →
        ∃ w, pointerGet json (strDrop s 1) = .ok w) →
      strStartsWith r "#" = true →
      pointerGet json (strDrop r 1) = .ok d →
      d.truthy = true →
      (∀ s, Json.str s ∈ rest → strStartsWith s "#" = true →
        ∃ w, pointerGet json (strDrop s 1) = .ok w ∧ w.truthy = false) →
      getExampleFromMatches json (l ++ Json.str r :: rest) =
        .ok ((d.getField "value").getD .null)) := by
  constructor
  · intro json; rfl
  · intro json l rest r d h1l h1r h2l hr hd hdt h2r
    obtain ⟨acc0, hacc0⟩ := collectDeref_ok_exists json l h1l h2l none
    simp only [getExampleFromMatches, collectDeref_append, hacc0, except_ok_bind]
    simp only [collectDeref, if_pos hr, hd, except_ok_bind, hdt, ite_true]
    rw [collectDeref_falsy_keeps json rest h1r h2r (some d), except_ok_bind]

theorem C10_amended_witness :
    getExampleFromMatches c10Doc [Json.str "#/target"] = .ok (Json.num 5) := by
  have h := C10_amended.2 c10Doc [] [] "#/target" (Json.obj [("value", Json.num 5)])
    (by simp) (by simp) (by intro s hs; simp at hs) (by decide) (by decide) (by decide)
    (by intro s hs; simp at hs)
  simpa using h

/-- Claim C10 (counterexample): the wildcard path `$.a.*` matches two nodes of
`c10Doc`; the first is a `#`-reference resolving to a truthy node carrying
`value: 5`, so the claim asserts the function returns `5` --- but the second
match is a reference whose pointer does not resolve, and the unguarded
`JsonPointer.get` in the callback throws, so the function throws instead of
returning the dereferenced value field. -/
theorem C10_counterexample :
    Json.queryValues c10Doc ["a", "*"] = [.str "#/target", .str "#/missing"] ∧
    strStartsWith "#/target" "#" = true ∧
    pointerGet c10Doc (strDrop "#/target" 1) = .ok (.obj [("value", .num 5)]) ∧
    (Json.obj [("value", .num 5)]).truthy = true ∧
    _getExampleByPath (some ["a", "*"]) c10Doc =
      .error (.pointerError "Invalid reference token: missing") ∧
    _getExampleByPath (some ["a", "*"]) c10Doc ≠ .ok (.num 5) := by
  refine ⟨by decide, by decide, by decide, by decide, by decide, by decide⟩

/-- Claim C8: a failing read/parse of the supplied file path is caught and
wrapped: `validateFile` (spec file), and `validateExample` (example file, or
spec file once the example file was read) return a `ValidationResponse` with
`valid: false` whose error list is exactly one `ENOENT`-kind error carrying
that path --- the failure never propagates as a thrown exception. -/
theorem C8_read_failure_wrapped :
    (∀ (runAjv : AjvOracle) (fs : FileSystem) (p : String), fs p = none →
      validateFile runAjv fs p =
        .ok ⟨false, _initStatistics [], [AppError.create (.ioError p)]⟩ ∧
      (AppError.create (.ioError p)).errType = AppError.ERR_TYPE__JS_ENOENT ∧
      (AppError.create (.ioError p)).params = some p) ∧
    (∀ (runAjv : AjvOracle) (fs : FileSystem) (fps psch fpe : String), fs fpe = none →
      validateExample runAjv fs fps psch fpe =
        .ok ⟨false, _initStatistics [], [AppError.create (.ioError fpe)]⟩) ∧
    (∀ (runAjv : AjvOracle) (fs : FileSystem) (fps psch fpe : String) (ex : Json),
      fs fpe = some ex → fs fps = none →
      validateExample runAjv fs fps psch fpe =
        .ok ⟨false, _initStatistics [], [AppError.create (.ioError fps)]⟩) := by
  refine ⟨?_, ?_, ?_⟩
  · intro runAjv fs p h
    refine ⟨?_, rfl, rfl⟩
    simp only [validateFile, h, createValidationResponse]
    rfl
  · intro runAjv fs fps psch fpe h
    simp only [validateExample, h, createValidationResponse]
    rfl
  · intro runAjv fs fps psch fpe ex he h
    simp only [validateExample, he, h, createValidationResponse]
    rfl

theorem C8_witness :
    (validateFile trivialAjv c8Fs "spec.json" =
      .ok ⟨false, _initStatistics [], [AppError.create (.ioError "spec.json")]⟩) ∧
    (validateExample trivialAjv c8Fs "s.json" "$.schema" "e.json" =
      .ok ⟨false, _initStatistics [], [AppError.create (.ioError "e.json")]⟩) := by
  exact ⟨(C8_read_failure_wrapped.1 trivialAjv c8Fs "spec.json" rfl).1,
    C8_read_failure_wrapped.2.1 trivialAjv c8Fs "s.json" "$.schema" "e.json" rfl⟩

theorem validateExample_ok_schemaAfter (runAjv : AjvOracle) (bundle schema ex : Json)
    (stats : ValidationStatistics) (fp : Option String)
    (out : List AppError × ValidationStatistics × Json)
    (h : _validateExample runAjv bundle schema ex stats fp = .ok out) :
    out.2.2 = schema ∨ ∃ pr, prepareCompile schema = .ok pr ∧ out.2.2 = pr.2 := by
  simp only [_validateExample] at h
  split at h
  · cases h
    left; rfl
  · split at h
    · exact absurd h (by simp)
    · cases hpc : prepareCompile schema with
      | error e =>
          rw [hpc, except_error_bind] at h
          exact absurd h (by simp)
      | ok pr =>
          rw [hpc, except_ok_bind] at h
          cases hra : runAjv bundle pr.1 ex with
          | error e =>
              rw [hra, except_error_bind] at h
              exact absurd h (by simp)
          | ok errs =>
              rw [hra, except_ok_bind] at h
              cases h
              right
              exact ⟨pr, rfl, rfl⟩

theorem pairValidation_ok_parts (runAjv : AjvOracle) (bundle : Json)
    (vmap : List (List String × List String)) (p : List String) (st : OrchState)
    (cur : List AppError) (stats' : ValidationStatistics) (doc' : Json)
    (h : pairValidation runAjv bundle vmap p st = .ok (cur, stats', doc')) :
    ∃ ex s out,
      _getExampleByPath (vmap.lookup p) st.doc = .ok ex ∧
      _extractSchema p st.doc false = .ok s ∧
      _validateExample runAjv bundle s ex st.statistics none = .ok out ∧
      stats' = out.2.1 ∧
      doc' = (if Json.getPath st.doc p = some s
              then Json.setPath st.doc p out.2.2 else st.doc) := by
  simp only [pairValidation] at h
  cases hex : _getExampleByPath (vmap.lookup p) st.doc with
  | error e => rw [hex, except_error_bind] at h; exact absurd h (by simp)
  | ok ex =>
      rw [hex, except_ok_bind] at h
      cases hsc : _extractSchema p st.doc false with
      | error e => rw [hsc, except_error_bind] at h; exact absurd h (by simp)
      | ok s =>
          rw [hsc, except_ok_bind] at h
          cases hve : _validateExample runAjv bundle s ex st.statistics none with
          | error e => rw [hve, except_error_bind] at h; exact absurd h (by simp)
          | ok out =>
              rw [hve, except_ok_bind] at h
              cases h
              exact ⟨ex, s, out, rfl, rfl, hve, rfl, rfl⟩

theorem validateSchema_ok_cases (runAjv : AjvOracle) (bundle : Json)
    (vmap : List (List String × List String)) (p : List String) (st st' : OrchState)
    (h : _validateSchema runAjv bundle vmap p st = .ok st') :
    ∃ cur stats' doc',
      pairValidation runAjv bundle vmap p st = .ok (cur, stats', doc') ∧
      st'.doc = doc' ∧ st'.statistics = stats' ∧
      ((cur = [] ∧ st'.errors = st.errors ∧ st'.valid = st.valid) ∨
       (cur ≠ [] ∧ st'.errors = insertPairErrors st.errors cur ∧ st'.valid = false)) := by
  simp only [_validateSchema] at h
  cases hpv : pairValidation runAjv bundle vmap p st with
  | error e => rw [hpv, except_error_bind] at h; exact absurd h (by simp)
  | ok trip =>
      rw [hpv, except_ok_bind] at h
      obtain ⟨cur, stats', doc'⟩ := trip
      refine ⟨cur, stats', doc', rfl, ?_⟩
      by_cases hc : cur.isEmpty
      · rw [if_pos hc] at h
        cases h
        exact ⟨rfl, rfl, .inl ⟨List.isEmpty_iff.mp hc, rfl, rfl⟩⟩
      · rw [if_neg hc] at h
        cases h
        refine ⟨rfl, rfl, .inr ⟨?_, rfl, rfl⟩⟩
        exact fun he => hc (by simp [he])

theorem insertPairErrors_ne_nil (E L : List AppError) (h : L ≠ []) :
    insertPairErrors E L ≠ [] := by
  simp only [insertPairErrors, jsSplice]
  intro hc
  have h1 := List.append_eq_nil.mp hc
  have h2 := List.append_eq_nil.mp h1.1
  exact h h2.2

theorem validateSchemasLoop_valid (runAjv : AjvOracle) (bundle : Json)
    (vmap : List (List String × List String)) :
    ∀ (paths : List (List String)) (st st' : OrchState),
      validateSchemasLoop runAjv bundle vmap paths st = .ok st' →
      st.valid = st.errors.isEmpty → st'.valid = st'.errors.isEmpty := by
  intro paths
  induction paths with
  | nil =>
      intro st st' h hv
      simp only [validateSchemasLoop] at h
      cases h
      exact hv
  | cons p rest ih =>
      intro st st' h hv
      simp only [validateSchemasLoop] at h
      cases hs : _validateSchema runAjv bundle vmap p st with
      | error e => rw [hs, except_error_bind] at h; exact absurd h (by simp)
      | ok st1 =>
          rw [hs, except_ok_bind] at h
          refine ih st1 st' h ?_
          obtain ⟨cur, stats', doc', _, _, _, hcase⟩ :=
            validateSchema_ok_cases _ _ _ _ _ _ hs
          rcases hcase with ⟨_, he, hvv⟩ | ⟨hne, he, hvv⟩
          · rw [hvv, he]; exact hv
          · rw [hvv, he]
            have hnn : insertPairErrors st.errors cur ≠ [] :=
              insertPairErrors_ne_nil _ _ hne
            cases hE : insertPairErrors st.errors cur with
            | nil => exact absurd hE hnn
            | cons a l => simp

theorem validateExamplesPaths_ok_shape (runAjv : AjvOracle)
    (pathsExamples : List (List String)) (doc : Json) (r : ValidationResponse)
    (d : Json) (h : _validateExamplesPaths runAjv pathsExamples doc = .ok (r, d)) :
    ∃ bundle impl st,
      _initValidatorFactory doc = .ok bundle ∧
      getImplementation doc = .ok impl ∧
      validateSchemasLoop runAjv bundle (_buildValidationMap pathsExamples)
          (_extractSchemaPaths doc impl)
          ⟨doc, _initStatistics (_extractSchemaPaths doc impl), [], true⟩ = .ok st ∧
      r = ⟨st.valid, st.statistics, st.errors⟩ ∧ d = st.doc := by
  simp only [_validateExamplesPaths] at h
  cases hb : _initValidatorFactory doc with
  | error e => rw [hb, except_error_bind] at h; exact absurd h (by simp)
  | ok bundle =>
      rw [hb, except_ok_bind] at h
      cases him : getImplementation doc with
      | error e => rw [him, except_error_bind] at h; exact absurd h (by simp)
      | ok impl =>
          rw [him, except_ok_bind] at h
          cases hl : validateSchemasLoop runAjv bundle
              (_buildValidationMap pathsExamples) (_extractSchemaPaths doc impl)
              ⟨doc, _initStatistics (_extractSchemaPaths doc impl), [], true⟩ with
          | error e => rw [hl, except_error_bind] at h; exact absurd h (by simp)
          | ok st =>
              rw [hl, except_ok_bind] at h
              cases h
              exact ⟨bundle, impl, st, rfl, rfl, hl, rfl, rfl⟩

theorem validateExamples_ok_shape (runAjv : AjvOracle) (doc : Json)
    (r : ValidationResponse) (d : Json)
    (h : validateExamples runAjv doc = .ok (r, d)) :
    ∃ impl, getImplementation doc = .ok impl ∧
      _validateExamplesPaths runAjv (_extractExamplePaths doc impl) doc = .ok (r, d) := by
  simp only [validateExamples] at h
  cases him : getImplementation doc with
  | error e => rw [him, except_error_bind] at h; exact absurd h (by simp)
  | ok impl =>
      rw [him, except_ok_bind] at h
      exact ⟨impl, rfl, h⟩

theorem validateExamples_ok_valid (runAjv : AjvOracle) (doc : Json)
    (r : ValidationResponse) (d : Json)
    (h : validateExamples runAjv doc = .ok (r, d)) :
    r.valid = r.errors.isEmpty := by
  obtain ⟨impl, _, hp⟩ := validateExamples_ok_shape _ _ _ _ h
  obtain ⟨bundle, impl2, st, _, _, hl, hr, _⟩ :=
    validateExamplesPaths_ok_shape _ _ _ _ _ hp
  have := validateSchemasLoop_valid _ _ _ _ _ _ hl rfl
  rw [hr]
  exact this

theorem createValidationResponse_valid (errors : List AppError)
    (stats : ValidationStatistics) :
    (createValidationResponse errors stats).valid =
      (createValidationResponse errors stats).errors.isEmpty := rfl

theorem validateFile_ok_valid (runAjv : AjvOracle) (fs : FileSystem) (p : String)
    (r : ValidationResponse) (h : validateFile runAjv fs p = .ok r) :
    r.valid = r.errors.isEmpty := by
  simp only [validateFile] at h
  cases hf : fs p with
  | none =>
      simp only [hf] at h
      cases h
      rfl
  | some doc =>
      simp only [hf] at h
      cases hve : validateExamples runAjv doc with
      | error e => rw [hve] at h; exact absurd h (by simp [Except.map])
      | ok pair =>
          rw [hve] at h
          simp only [Except.map] at h
          cases h
          exact validateExamples_ok_valid runAjv doc pair.1 pair.2 (by rw [hve])

theorem validateExample_entry_ok_valid (runAjv : AjvOracle) (fs : FileSystem)
    (fps psch fpe : String) (r : ValidationResponse)
    (h : validateExample runAjv fs fps psch fpe = .ok r) :
    r.valid = r.errors.isEmpty := by
  simp only [validateExample] at h
  cases hfe : fs fpe with
  | none => simp only [hfe] at h; cases h; rfl
  | some ex =>
      simp only [hfe] at h
      cases hfs : fs fps with
      | none => simp only [hfs] at h; cases h; rfl
      | some spec =>
          simp only [hfs] at h
          cases hsc : _extractSchema (parsePathString psch) spec false with
          | error e => simp only [hsc] at h; cases h; rfl
          | ok schema =>
              simp only [hsc] at h
              simp only [_validate] at h
              cases hb : _initValidatorFactory spec with
              | error e =>
                  rw [hb] at h
                  simp only [except_error_bind] at h
                  exact absurd h (by simp)
              | ok bundle =>
                  rw [hb, except_ok_bind] at h
                  cases hve : _validateExample runAjv bundle schema ex
                      (_initStatistics [parsePathString psch]) (some fpe) with
                  | error e =>
                      rw [hve, except_error_bind] at h
                      rw [except_error_bind] at h
                      exact absurd h (by simp)
                  | ok out =>
                      rw [hve, except_ok_bind] at h
                      rw [except_ok_bind] at h
                      cases h
                      rfl

theorem byMapProcessFile_ok_valid (runAjv : AjvOracle) (fs : FileSystem)
    (cwd : Bool) (fps f : String) (rc : ValidationResponse × Bool)
    (h : byMapProcessFile runAjv fs cwd fps f = .ok rc) :
    rc.1.valid = rc.1.errors.isEmpty := by
  simp only [byMapProcessFile] at h
  cases hf : fs f with
  | none => simp only [hf] at h; cases h; rfl
  | some m =>
      simp only [hf] at h
      cases hs : fs fps with
      | none => simp only [hs] at h; cases h; rfl
      | some spec =>
          simp only [hs] at h
          cases hh : _handleExamplesByMapValidation runAjv fs cwd (jsDirname f)
              (objEntries m) spec
              (_initStatistics ((objEntries m).map (fun e => parsePathString e.1))) with
          | error e => rw [hh, except_error_bind] at h; exact absurd h (by simp)
          | ok trip =>
              rw [hh, except_ok_bind] at h
              cases h
              rfl

theorem mergeResponses_valid (r1 r2 : ValidationResponse) :
    (_mergeValidationResponses r1 r2).valid =
      (_mergeValidationResponses r1 r2).errors.isEmpty := rfl

theorem foldl_merge_valid (rs : List ValidationResponse) :
    ∀ (r0 : ValidationResponse), r0.valid = r0.errors.isEmpty →
      (rs.foldl _mergeValidationResponses r0).valid =
        (rs.foldl _mergeValidationResponses r0).errors.isEmpty := by
  induction rs with
  | nil => intro r0 h; exact h
  | cons b rs ih =>
      intro r0 _
      exact ih (_mergeValidationResponses r0 b) (mergeResponses_valid r0 b)

theorem validateExamplesByMap_ok_shape (runAjv : AjvOracle) (fs : FileSystem)
    (fps g : String) (gs : List String) (cwd : Bool) (resp : ValidationResponse)
    (h : validateExamplesByMap runAjv fs fps g gs cwd = .ok resp) :
    ∃ (r0 : ValidationResponse) (c0 : Bool) (rs : List ValidationResponse) (n : Nat),
      byMapProcessFile runAjv fs cwd fps g = .ok (r0, c0) ∧
      byMapFilesLoop runAjv fs cwd fps gs = .ok (rs, n) ∧
      resp.valid = (rs.foldl _mergeValidationResponses r0).valid ∧
      resp.errors = (rs.foldl _mergeValidationResponses r0).errors ∧
      resp.statistics.schemasWithExamples =
        (rs.foldl _mergeValidationResponses r0).statistics.schemasWithExamples ∧
      resp.statistics.examplesTotal =
        (rs.foldl _mergeValidationResponses r0).statistics.examplesTotal ∧
      resp.statistics.examplesWithoutSchema =
        (rs.foldl _mergeValidationResponses r0).statistics.examplesWithoutSchema ∧
      ∃ mi : Int, resp.statistics.matchingFilePathsMapping = some mi ∧
        mi = (if c0 then (1 : Int) else 0) + (n : Int) := by
  simp only [validateExamplesByMap] at h
  cases h0 : byMapProcessFile runAjv fs cwd fps g with
  | error e => rw [h0, except_error_bind] at h; exact absurd h (by simp)
  | ok rc =>
      obtain ⟨r0, c0⟩ := rc
      rw [h0, except_ok_bind] at h
      cases hl : byMapFilesLoop runAjv fs cwd fps gs with
      | error e => rw [hl, except_error_bind] at h; exact absurd h (by simp)
      | ok rsn =>
          obtain ⟨rs, n⟩ := rsn
          rw [hl, except_ok_bind] at h
          cases h
          refine ⟨r0, c0, rs, n, ?_, ?_, rfl, rfl, rfl, rfl, rfl,
            (if c0 then (1 : Int) else 0) + (n : Int), rfl, rfl⟩
          · rfl
          · rfl

theorem validateExamplesByMap_ok_valid (runAjv : AjvOracle) (fs : FileSystem)
    (fps g : String) (gs : List String) (cwd : Bool) (resp : ValidationResponse)
    (h : validateExamplesByMap runAjv fs fps g gs cwd = .ok resp) :
    resp.valid = resp.errors.isEmpty := by
  obtain ⟨r0, c0, rs, n, h0, hl, hv, he, _⟩ :=
    validateExamplesByMap_ok_shape _ _ _ _ _ _ _ h
  have hbase := byMapProcessFile_ok_valid _ _ _ _ _ _ h0
  have hme := foldl_merge_valid rs r0 hbase
  rw [hv, he]
  exact hme

theorem createValidationResponse_stats (errors : List AppError)
    (stats : ValidationStatistics) :
    (createValidationResponse errors stats).statistics = stats := rfl

/-- Claim C5: every public entry point returns a response with
`valid === (errors.length === 0)`: `valid` is `true` iff the error list is
empty (whenever the call returns a response rather than propagating an
exception). -/
theorem C5_valid_iff_no_errors :
    (∀ (runAjv : AjvOracle) (doc : Json) (r : ValidationResponse) (d : Json),
      validateExamples runAjv doc = .ok (r, d) → r.valid = r.errors.isEmpty) ∧
    (∀ (runAjv : AjvOracle) (fs : FileSystem) (p : String) (r : ValidationResponse),
      validateFile runAjv fs p = .ok r → r.valid = r.errors.isEmpty) ∧
    (∀ (runAjv : AjvOracle) (fs : FileSystem) (fps psch fpe : String)
      (r : ValidationResponse),
      validateExample runAjv fs fps psch fpe = .ok r → r.valid = r.errors.isEmpty) ∧
    (∀ (runAjv : AjvOracle) (fs : FileSystem) (fps g : String) (gs : List String)
      (cwd : Bool) (r : ValidationResponse),
      validateExamplesByMap runAjv fs fps g gs cwd = .ok r →
        r.valid = r.errors.isEmpty) := by
  exact ⟨fun runAjv doc r d h => validateExamples_ok_valid runAjv doc r d h,
    fun runAjv fs p r h => validateFile_ok_valid runAjv fs p r h,
    fun runAjv fs a b c r h => validateExample_entry_ok_valid runAjv fs a b c r h,
    fun runAjv fs a g gs cwd r h => validateExamplesByMap_ok_valid runAjv fs a g gs cwd r h⟩

theorem C5_witness :
    c3Resp.valid = c3Resp.errors.isEmpty ∧ c3Resp.valid = false :=
  ⟨C5_valid_iff_no_errors.1 trivialAjv c3Doc c3Resp c3Doc (by decide), rfl⟩

theorem list_set_self {α : Type} (xs : List α) :
    ∀ (i : Nat) (w : α), xs.get? i = some w → xs.set i w = xs := by
  induction xs with
  | nil => intro i w h; simp at h
  | cons a xs ih =>
      intro i w h
      cases i with
      | zero =>
          simp only [List.get?] at h
          cases h
          rfl
      | succ n =>
          simp only [List.get?] at h
          simp only [List.set]
          rw [ih n w h]

theorem setFields_self (fs : List (String × Json)) (k : String) (w : Json)
    (h : fs.lookup k = some w) : Json.setFields fs k w = fs := by
  induction fs with
  | nil => simp [List.lookup] at h
  | cons kv fs ih =>
      obtain ⟨a, b⟩ := kv
      simp only [List.lookup] at h
      by_cases hk : a = k
      · subst hk
        rw [beq_self_eq_true] at h
        simp only at h
        cases h
        simp [Json.setFields]
      · have hb : (k == a) = false := by
          simp only [beq_eq_false_iff_ne, ne_eq]
          exact fun he => hk he.symm
        rw [hb] at h
        simp only at h
        simp only [Json.setFields, if_neg hk]
        rw [ih h]

theorem setPath_getPath : ∀ (p : List String) (j v : Json),
    Json.getPath j p = some v → Json.setPath j p v = j := by
  intro p
  induction p with
  | nil =>
      intro j v h
      simp only [Json.getPath] at h
      cases h
      cases j <;> rfl
  | cons k rest ih =>
      intro j v h
      cases j with
      | obj fs =>
          simp only [Json.getPath] at h
          cases hlk : fs.lookup k with
          | none => rw [hlk] at h; simp at h
          | some w =>
              rw [hlk] at h
              simp only at h
              simp only [Json.setPath, hlk]
              rw [ih w v h, setFields_self fs k w hlk]
      | arr xs =>
          simp only [Json.getPath] at h
          cases hn : strToNat? k with
          | none => rw [hn] at h; simp at h
          | some i =>
              rw [hn] at h
              simp only at h
              cases hg : xs.get? i with
              | none => rw [hg] at h; simp at h
              | some w =>
                  rw [hg] at h
                  simp only at h
                  simp only [Json.setPath, hn, hg]
                  rw [ih w v h, list_set_self xs i w hg]
      | null => simp [Json.getPath] at h
      | bool b => simp [Json.getPath] at h
      | num n => simp [Json.getPath] at h
      | str s => simp [Json.getPath] at h

theorem validateSchemasLoop_doc (runAjv : AjvOracle) (bundle : Json)
    (vmap : List (List String × List String)) (doc : Json) :
    ∀ (paths : List (List String)) (st st' : OrchState),
      validateSchemasLoop runAjv bundle vmap paths st = .ok st' →
      st.doc = doc →
      (∀ p ∈ paths, ∀ s, _extractSchema p doc false = .ok s →
        ∀ pr, prepareCompile s = .ok pr → pr.2 = s) →
      st'.doc = doc := by
  intro paths
  induction paths with
  | nil =>
      intro st st' h hd _
      simp only [validateSchemasLoop] at h
      cases h
      exact hd
  | cons p rest ih =>
      intro st st' h hd hns
      simp only [validateSchemasLoop] at h
      cases hs : _validateSchema runAjv bundle vmap p st with
      | error e => rw [hs, except_error_bind] at h; exact absurd h (by simp)
      | ok st1 =>
          rw [hs, except_ok_bind] at h
          obtain ⟨cur, stats', doc', hpv, hdoc1, _, _⟩ :=
            validateSchema_ok_cases _ _ _ _ _ _ hs
          obtain ⟨ex, s, out, _, hes, hve, _, hdoc'⟩ :=
            pairValidation_ok_parts _ _ _ _ _ _ _ _ hpv
          have hd1 : st1.doc = doc := by
            rw [hdoc1, hdoc']
            by_cases hgp : Json.getPath st.doc p = some s
            · rw [if_pos hgp]
              have hafter := validateExample_ok_schemaAfter _ _ _ _ _ _ _ hve
              have hout : out.2.2 = s := by
                rcases hafter with heq | ⟨pr, hpr, heq⟩
                · exact heq
                · rw [heq]
                  exact hns p (List.mem_cons_self _ _) s (by rw [← hd]; exact hes) pr hpr
              rw [hout]
              rw [hd] at hgp ⊢
              exact setPath_getPath p doc s hgp
            · rw [if_neg hgp]
              exact hd
          exact ih st1 st' h hd1 (fun q hq => hns q (List.mem_cons_of_mem _ hq))

/-- Claim C2 (amended): the preparation step of `compileValidate` shallow-copies
the schema, so a `$ref` nested below the top level of a visited schema is
rewritten in place in the caller document (a `$ref` sitting in the top-level
slot of the schema is rewritten only on the private shallow copy and never
reaches the caller); when no visited schema has such a nested internal
reference (`noSharedRefRewrites`), `validateExamples` leaves the caller
document unchanged and calling it again on the returned document reproduces
the same response --- the call is then idempotent and mutation-free. -/
theorem C2_amended (runAjv : AjvOracle) (doc : Json) (r : ValidationResponse)
    (d : Json) (h1 : noSharedRefRewrites doc = true)
    (h2 : validateExamples runAjv doc = .ok (r, d)) :
    d = doc ∧ validateExamples runAjv d = .ok (r, d) := by
  obtain ⟨impl, him, hp⟩ := validateExamples_ok_shape _ _ _ _ h2
  obtain ⟨bundle, impl2, st, hb, him2, hl, hr, hd⟩ :=
    validateExamplesPaths_ok_shape _ _ _ _ _ hp
  have hns : ∀ p ∈ _extractSchemaPaths doc impl2, ∀ s,
      _extractSchema p doc false = .ok s →
      ∀ pr, prepareCompile s = .ok pr → pr.2 = s := by
    intro p hpmem s hes pr hpr
    simp only [noSharedRefRewrites, him2] at h1
    have hall := (List.all_eq_true.mp h1) p hpmem
    simp only [hes, hpr] at hall
    exact eq_of_beq hall
  have hdoc : st.doc = doc :=
    validateSchemasLoop_doc _ _ _ _ _ _ _ hl rfl hns
  have hDd : d = doc := by rw [hd, hdoc]
  subst hDd
  exact ⟨rfl, h2⟩

theorem C2_amended_witness :
    noSharedRefRewrites c2TopDoc = true ∧ c2TopDoc = c2TopDoc ∧
      validateExamples trivialAjv c2TopDoc = .ok (c2TopResp, c2TopDoc) := by
  have h := C2_amended trivialAjv c2TopDoc c2TopResp c2TopDoc (by decide) (by decide)
  exact ⟨by decide, rfl, h.2⟩

/-- Claim C2 (counterexample): on `c2Doc`, whose schema holds a nested internal
`$ref` (`items.$ref`), `validateExamples` returns with the caller document
mutated: the nested reference has been rewritten in place to point into the
reference bundle, so the document after the call differs from the input ---
the claim that `compileValidate` rewrites only a private clone is false. -/
theorem C2_counterexample :
    validateExamples trivialAjv c2Doc =
      .ok (⟨true, ⟨1, 1, 0, none⟩, []⟩, c2DocAfter) ∧
    c2DocAfter ≠ c2Doc := by
  exact ⟨by decide, by decide⟩

theorem byMapProcessFile_counted (runAjv : AjvOracle) (fs : FileSystem)
    (cwd : Bool) (fps f : String) (rc : ValidationResponse × Bool)
    (h : byMapProcessFile runAjv fs cwd fps f = .ok rc) :
    rc.2 = ((fs f).isSome && (fs fps).isSome) := by
  simp only [byMapProcessFile] at h
  cases hf : fs f with
  | none => simp only [hf] at h; cases h; rfl
  | some m =>
      simp only [hf] at h
      cases hs : fs fps with
      | none => simp only [hs] at h; cases h; rfl
      | some spec =>
          simp only [hs] at h
          cases hh : _handleExamplesByMapValidation runAjv fs cwd (jsDirname f)
              (objEntries m) spec
              (_initStatistics ((objEntries m).map (fun e => parsePathString e.1))) with
          | error e => rw [hh, except_error_bind] at h; exact absurd h (by simp)
          | ok trip =>
              rw [hh, except_ok_bind] at h
              cases h
              rfl

theorem byMapFilesLoop_ok (runAjv : AjvOracle) (fs : FileSystem) (cwd : Bool)
    (fps : String) :
    ∀ (gs : List String) (rs : List ValidationResponse) (n : Nat),
      byMapFilesLoop runAjv fs cwd fps gs = .ok (rs, n) →
      ∃ rcs : List (ValidationResponse × Bool),
        List.Forall₂
          (fun f rc => byMapProcessFile runAjv fs cwd fps f = .ok rc) gs rcs ∧
        rs = rcs.map (fun rc => rc.1) ∧
        n = rcs.countP (fun rc => rc.2) := by
  intro gs
  induction gs with
  | nil =>
      intro rs n h
      simp only [byMapFilesLoop] at h
      cases h
      exact ⟨[], List.Forall₂.nil, rfl, rfl⟩
  | cons f gs ih =>
      intro rs n h
      simp only [byMapFilesLoop] at h
      cases h0 : byMapProcessFile runAjv fs cwd fps f with
      | error e => rw [h0, except_error_bind] at h; exact absurd h (by simp)
      | ok rc =>
          rw [h0, except_ok_bind] at h
          cases hl : byMapFilesLoop runAjv fs cwd fps gs with
          | error e => rw [hl, except_error_bind] at h; exact absurd h (by simp)
          | ok rsn =>
              obtain ⟨rs', n'⟩ := rsn
              rw [hl, except_ok_bind] at h
              cases h
              obtain ⟨rcs', hfa, hrs, hn⟩ := ih rs' n' hl
              refine ⟨rc :: rcs', List.Forall₂.cons h0 hfa, by rw [hrs]; rfl, ?_⟩
              rw [List.countP_cons, hn]
              cases hc : rc.2 <;> simp [hc] <;> try omega

theorem merge_errors (r1 r2 : ValidationResponse) :
    (_mergeValidationResponses r1 r2).errors = r1.errors ++ r2.errors := rfl

theorem foldl_merge_errors (rs : List ValidationResponse) :
    ∀ r0 : ValidationResponse,
      (rs.foldl _mergeValidationResponses r0).errors =
        r0.errors ++ (rs.map (fun r => r.errors)).flatten := by
  induction rs with
  | nil => intro r0; simp
  | cons b rs ih =>
      intro r0
      simp only [List.foldl_cons, List.map_cons, List.flatten_cons]
      rw [ih, merge_errors, List.append_assoc]

theorem foldl_merge_swe (rs : List ValidationResponse) :
    ∀ r0 : ValidationResponse,
      (rs.foldl _mergeValidationResponses r0).statistics.schemasWithExamples =
        r0.statistics.schemasWithExamples +
          (rs.map (fun r => r.statistics.schemasWithExamples)).sum := by
  induction rs with
  | nil => intro r0; simp
  | cons b rs ih =>
      intro r0
      simp only [List.foldl_cons, List.map_cons, List.sum_cons]
      rw [ih]
      show (_mergeValidationResponses r0 b).statistics.schemasWithExamples + _ = _
      simp only [_mergeValidationResponses, createValidationResponse, mergeStatistics]
      ring

theorem foldl_merge_total (rs : List ValidationResponse) :
    ∀ r0 : ValidationResponse,
      (rs.foldl _mergeValidationResponses r0).statistics.examplesTotal =
        r0.statistics.examplesTotal +
          (rs.map (fun r => r.statistics.examplesTotal)).sum := by
  induction rs with
  | nil => intro r0; simp
  | cons b rs ih =>
      intro r0
      simp only [List.foldl_cons, List.map_cons, List.sum_cons]
      rw [ih]
      show (_mergeValidationResponses r0 b).statistics.examplesTotal + _ = _
      simp only [_mergeValidationResponses, createValidationResponse, mergeStatistics]
      ring

theorem foldl_merge_ews (rs : List ValidationResponse) :
    ∀ r0 : ValidationResponse,
      (rs.foldl _mergeValidationResponses r0).statistics.examplesWithoutSchema =
        r0.statistics.examplesWithoutSchema +
          (rs.map (fun r => r.statistics.examplesWithoutSchema)).sum := by
  induction rs with
  | nil => intro r0; simp
  | cons b rs ih =>
      intro r0
      simp only [List.foldl_cons, List.map_cons, List.sum_cons]
      rw [ih]
      show (_mergeValidationResponses r0 b).statistics.examplesWithoutSchema + _ = _
      simp only [_mergeValidationResponses, createValidationResponse, mergeStatistics]
      ring

/-- Claim C6 (amended): `validateExamplesByMap` merges the per-mapping-file
responses: error lists concatenated in glob-expansion file order, every base
statistics counter summed field-wise, and `matchingFilePathsMapping` equal to
the number of glob entries for which BOTH the mapping file and the spec file
were successfully read and parsed (not the number of glob entries, and not
the number of successfully-opened mapping files alone: an unreadable spec
file suppresses the increment --- see the counterexample). -/
theorem C6_amended (runAjv : AjvOracle) (fs : FileSystem) (fps g : String)
    (gs : List String) (cwd : Bool) (resp : ValidationResponse)
    (h : validateExamplesByMap runAjv fs fps g gs cwd = .ok resp) :
    ∃ rcs : List (ValidationResponse × Bool),
      List.Forall₂
        (fun f rc => byMapProcessFile runAjv fs cwd fps f = .ok rc ∧
          rc.2 = ((fs f).isSome && (fs fps).isSome)) (g :: gs) rcs ∧
      resp.errors = (rcs.map (fun rc => rc.1.errors)).flatten ∧
      resp.statistics.schemasWithExamples =
        (rcs.map (fun rc => rc.1.statistics.schemasWithExamples)).sum ∧
      resp.statistics.examplesTotal =
        (rcs.map (fun rc => rc.1.statistics.examplesTotal)).sum ∧
      resp.statistics.examplesWithoutSchema =
        (rcs.map (fun rc => rc.1.statistics.examplesWithoutSchema)).sum ∧
      resp.statistics.matchingFilePathsMapping =
        some ((rcs.countP (fun rc => rc.2) : Nat) : Int) := by
  obtain ⟨r0, c0, rs, n, h0, hl, hv, herr, hswe, htot, hews, mi, hmi, hmieq⟩ :=
    validateExamplesByMap_ok_shape _ _ _ _ _ _ _ h
  obtain ⟨rcs', hfa, hrs, hn⟩ := byMapFilesLoop_ok _ _ _ _ _ _ _ hl
  refine ⟨(r0, c0) :: rcs', ?_, ?_, ?_, ?_, ?_, ?_⟩
  · refine List.Forall₂.cons ⟨h0, byMapProcessFile_counted _ _ _ _ _ _ h0⟩ ?_
    exact List.Forall₂.imp
      (fun {f} {rc} hfc => ⟨hfc, byMapProcessFile_counted _ _ _ _ _ _ hfc⟩) hfa
  · rw [herr, foldl_merge_errors, hrs]
    simp only [List.map_cons, List.flatten_cons, List.map_map]
    rfl
  · rw [hswe, foldl_merge_swe, hrs]
    simp only [List.map_cons, List.sum_cons, List.map_map]
    rfl
  · rw [htot, foldl_merge_total, hrs]
    simp only [List.map_cons, List.sum_cons, List.map_map]
    rfl
  · rw [hews, foldl_merge_ews, hrs]
    simp only [List.map_cons, List.sum_cons, List.map_map]
    rfl
  · rw [hmi, hmieq, hn]
    rw [List.countP_cons]
    cases hc : c0 <;> simp [hc] <;> try ring

theorem C6_amended_witness :
    ∃ rcs : List (ValidationResponse × Bool),
      List.Forall₂
        (fun f rc => byMapProcessFile trivialAjv c6Fs false "spec.json" f = .ok rc ∧
          rc.2 = (((c6Fs f).isSome) && ((c6Fs "spec.json").isSome)))
        ["map.json"] rcs ∧
      c6Resp.errors = (rcs.map (fun rc => rc.1.errors)).flatten := by
  obtain ⟨rcs, hfa, herr, _⟩ :=
    C6_amended trivialAjv c6Fs "spec.json" "map.json" [] false c6Resp (by decide)
  exact ⟨rcs, hfa, herr⟩

/-- Claim C6 (counterexample): with `c6Fs` the mapping file `map.json` opens
and parses, but the spec file does not: `matchingFilePathsMapping` is `0`
although the number of successfully-opened mapping files is `1` --- the
counter counts (mapping file, spec file) pairs that both parsed, not opened
mapping files. -/
theorem C6_counterexample :
    validateExamplesByMap trivialAjv c6Fs "spec.json" "map.json" [] false =
      .ok c6Resp ∧
    c6Resp.statistics.matchingFilePathsMapping = some 0 ∧
    (["map.json"] : List String).countP (fun f => (c6Fs f).isSome) = 1 ∧
    (0 : Int) ≠ 1 := by
  exact ⟨by decide, by decide, by decide, by decide⟩

theorem extractSchema_error_kind (segs : List String) (spec : Json) (e : RTErr)
    (h : _extractSchema segs spec false = .error e) :
    e = .jsonPathNotFound ("Path to schema cannot be found: " ++ toPathString segs)
      (toPathString segs) := by
  simp only [_extractSchema] at h
  split at h
  · cases h
    rfl
  · exact absurd h (by simp)

theorem handleMap_bad_entry (runAjv : AjvOracle) (fs : FileSystem) (cwd : Bool)
    (dir : String) (k : String) (v : Json) (spec : Json)
    (stats : ValidationStatistics) (e : RTErr)
    (hx : _extractSchema (parsePathString k) spec false = .error e) :
    _handleExamplesByMapValidation runAjv fs cwd dir [(k, v)] spec stats =
      .ok ([AppError.create e], stats, spec) := by
  simp only [_handleExamplesByMapValidation, hx, except_ok_bind]

theorem handleMap_append (runAjv : AjvOracle) (fs : FileSystem) (cwd : Bool)
    (dir : String) :
    ∀ (A B : List (String × Json)) (spec : Json) (stats : ValidationStatistics),
      _handleExamplesByMapValidation runAjv fs cwd dir (A ++ B) spec stats =
        (_handleExamplesByMapValidation runAjv fs cwd dir A spec stats) >>= fun r1 =>
          (_handleExamplesByMapValidation runAjv fs cwd dir B r1.2.2 r1.2.1).map
            fun r2 => (r1.1 ++ r2.1, r2.2) := by
  intro A
  induction A with
  | nil =>
      intro B spec stats
      simp only [List.nil_append, _handleExamplesByMapValidation, except_ok_bind]
      cases hB : _handleExamplesByMapValidation runAjv fs cwd dir B spec stats with
      | error e => simp [Except.map]
      | ok r2 => simp [Except.map]
  | cons kv A ih =>
      obtain ⟨k, v⟩ := kv
      intro B spec stats
      simp only [List.cons_append, _handleExamplesByMapValidation]
      cases hx : _extractSchema (parsePathString k) spec false with
      | error err =>
          simp only [List.append_eq]
          rw [ih]
          cases hA : _handleExamplesByMapValidation runAjv fs cwd dir A spec stats with
          | error e =>
              simp [except_error_bind, except_ok_bind, Except.map]
          | ok r1 =>
              simp only [except_ok_bind, except_error_bind, Except.map]
              cases hB : _handleExamplesByMapValidation runAjv fs cwd dir B
                  r1.2.2 r1.2.1 with
              | error e => simp [except_error_bind]
              | ok r2 => simp [except_ok_bind]
      | ok schema =>
          cases hel : entryFilesLoop runAjv fs cwd dir
              (match Json.queryPaths spec (parsePathString k) with
               | [p] => if Json.getPath spec p = some schema then some p else none
               | _ => none)
              (flattenFilePaths v) ⟨schema, spec, stats⟩ with
          | error e =>
              simp only [hel, except_error_bind, except_error_bind]
          | ok r1 =>
              simp only [hel, except_ok_bind, List.append_eq]
              rw [ih]
              cases hA : _handleExamplesByMapValidation runAjv fs cwd dir A
                  r1.2.spec r1.2.statistics with
              | error e => simp [except_error_bind, except_ok_bind, Except.map]
              | ok rA =>
                  simp only [except_ok_bind, Except.map]
                  cases hB : _handleExamplesByMapValidation runAjv fs cwd dir B
                      rA.2.2 rA.2.1 with
                  | error e => simp [except_error_bind]
                  | ok rB => simp [except_ok_bind, List.append_assoc]

/-- Claim C7: (1) processing a list of mapping entries decomposes over list
append, threading statistics and the (possibly mutated) spec --- no entry
aborts its siblings; (2) an entry whose schema-location key fails to resolve
contributes exactly one wrapped error and leaves the state untouched, for
EVERY file system (its example files are never read); (3) the extraction
failure is always the `JsonPathNotFound` (`PATH_NOT_FOUND`) kind, carrying
the offending location path. -/
theorem C7_path_not_found_isolated :
    (∀ (runAjv : AjvOracle) (fs : FileSystem) (cwd : Bool) (dir : String)
      (A B : List (String × Json)) (spec : Json) (stats : ValidationStatistics),
      _handleExamplesByMapValidation runAjv fs cwd dir (A ++ B) spec stats =
        (_handleExamplesByMapValidation runAjv fs cwd dir A spec stats) >>= fun r1 =>
          (_handleExamplesByMapValidation runAjv fs cwd dir B r1.2.2 r1.2.1).map
            fun r2 => (r1.1 ++ r2.1, r2.2)) ∧
    (∀ (runAjv : AjvOracle) (fs : FileSystem) (cwd : Bool) (dir : String)
      (k : String) (v : Json) (spec : Json) (stats : ValidationStatistics) (e : RTErr),
      _extractSchema (parsePathString k) spec false = .error e →
      _handleExamplesByMapValidation runAjv fs cwd dir [(k, v)] spec stats =
        .ok ([AppError.create e], stats, spec)) ∧
    (∀ (segs : List String) (spec : Json) (e : RTErr),
      _extractSchema segs spec false = .error e →
      e = .jsonPathNotFound
        ("Path to schema cannot be found: " ++ toPathString segs)
        (toPathString segs)) := by
  exact ⟨fun runAjv fs cwd dir A B spec stats =>
      handleMap_append runAjv fs cwd dir A B spec stats,
    fun runAjv fs cwd dir k v spec stats e hx =>
      handleMap_bad_entry runAjv fs cwd dir k v spec stats e hx,
    fun segs spec e h => extractSchema_error_kind segs spec e h⟩

theorem C7_witness :
    _handleExamplesByMapValidation trivialAjv c7Fs false "."
        [("$.nope", Json.str "e2.json")]
        (Json.obj [("schema", Json.obj [("type", Json.str "string")])])
        (_initStatistics []) =
      .ok ([AppError.create (.jsonPathNotFound
        ("Path to schema cannot be found: " ++ toPathString ["nope"])
        (toPathString ["nope"]))],
        _initStatistics [],
        Json.obj [("schema", Json.obj [("type", Json.str "string")])]) := by
  exact C7_path_not_found_isolated.2.1 trivialAjv c7Fs false "." "$.nope"
    (Json.str "e2.json") (Json.obj [("schema", Json.obj [("type", Json.str "string")])])
    (_initStatistics []) _ (by decide)
